/-
  Shallow embedding of the invoice-numbering and transaction failure-control
  subsystem of the rechnungsflow-gohighlevel Netlify functions
  (create-native-invoice, get-logs), with proofs about its behaviour.

  Machine integers are modelled as Nat; Redis state is passed explicitly;
  the downstream billing call and the log sink are oracles passed as
  parameters.  Recursive string scanners are written with an explicit fuel
  argument (fuel = length of the list, always sufficient) so that every
  definition is executable and reduces in the kernel.
-/
import Mathlib

/-- Decimal digit character for a single digit, as produced by JS String(n). -/
def digitChar (d : Nat) : Char :=
  match d with
  | 0 => '0' | 1 => '1' | 2 => '2' | 3 => '3' | 4 => '4'
  | 5 => '5' | 6 => '6' | 7 => '7' | 8 => '8' | _ => '9'

/-- Numeric value of a digit character. -/
def charVal (ch : Char) : Nat := ch.toNat - 48

/-- Fueled decimal rendering of a natural number (most significant first). -/
def natDigitsF : Nat → Nat → List Char
  | 0, _ => []
  | fuel + 1, n =>
    if n < 10 then [digitChar n] else natDigitsF fuel (n / 10) ++ [digitChar (n % 10)]

/-- Decimal rendering of a natural number, as JS String(n). -/
def natDigits (n : Nat) : List Char := natDigitsF (n + 1) n

theorem natDigitsF_eq (f : Nat) : ∀ n : Nat, n + 1 ≤ f → natDigitsF f n = natDigits n := by
  induction f using Nat.strong_induction_on with
  | _ f ih =>
    intro n hn
    match f, hn with
    | f + 1, hn =>
      show (if n < 10 then _ else _) = natDigits n
      unfold natDigits
      show (if n < 10 then _ else _)
         = (if n < 10 then [digitChar n] else natDigitsF n (n / 10) ++ [digitChar (n % 10)])
      by_cases h10 : n < 10
      · simp [h10]
      · have hd : n / 10 + 1 ≤ n := by omega
        rw [if_neg h10, if_neg h10]
        rw [ih f (by omega) (n / 10) (by omega)]
        rw [ih n (by omega) (n / 10) hd]

/-- Unfolding equation for natDigits, hiding the fuel. -/
theorem natDigits_unfold (n : Nat) :
    natDigits n = if n < 10 then [digitChar n] else natDigits (n / 10) ++ [digitChar (n % 10)] := by
  show natDigitsF (n + 1) n = _
  show (if n < 10 then [digitChar n] else natDigitsF n (n / 10) ++ [digitChar (n % 10)]) = _
  by_cases h10 : n < 10
  · simp [h10]
  · rw [if_neg h10, if_neg h10, natDigitsF_eq n (n / 10) (by omega)]

theorem natDigits_ne_nil (n : Nat) : natDigits n ≠ [] := by
  rw [natDigits_unfold]
  by_cases h10 : n < 10 <;> simp [h10]

theorem natDigits_length_pos (n : Nat) : 1 ≤ (natDigits n).length := by
  have := natDigits_ne_nil n
  cases h : natDigits n with
  | nil => exact absurd h this
  | cons a l => simp [h]

theorem charVal_digitChar {d : Nat} (h : d < 10) : charVal (digitChar d) = d := by
  interval_cases d <;> rfl

theorem digitChar_isDigit {d : Nat} (h : d < 10) : (digitChar d).isDigit = true := by
  interval_cases d <;> rfl

theorem natDigits_all_digits (n : Nat) : ∀ ch ∈ natDigits n, ch.isDigit = true := by
  induction n using Nat.strong_induction_on with
  | _ n ih =>
    rw [natDigits_unfold]
    by_cases h10 : n < 10
    · rw [if_pos h10]
      intro ch hch
      rw [List.mem_singleton] at hch
      rw [hch]
      exact digitChar_isDigit h10
    · rw [if_neg h10]
      intro ch hch
      rcases List.mem_append.mp hch with h1 | h2
      · exact ih (n / 10) (by omega) ch h1
      · rw [List.mem_singleton] at h2
        rw [h2]
        exact digitChar_isDigit (by omega)

/-- Left zero-padding to width w, as JS String(n).padStart(w, "0"). -/
def padc (c w : Nat) : List Char :=
  List.replicate (w - (natDigits c).length) '0' ++ natDigits c

theorem padc_length (c w : Nat) : (padc c w).length = max w (natDigits c).length := by
  have := natDigits_length_pos c
  simp [padc]
  omega

theorem padc_one (c : Nat) : padc c 1 = natDigits c := by
  have := natDigits_length_pos c
  unfold padc
  have h : 1 - (natDigits c).length = 0 := by omega
  rw [h]
  simp

/-- Accumulating decimal parse of a digit string. -/
def parseAcc (acc : Nat) : List Char → Nat
  | [] => acc
  | ch :: l => parseAcc (acc * 10 + charVal ch) l

/-- Decimal parse of a digit string, as used to read back a padded counter. -/
def parseNat (l : List Char) : Nat := parseAcc 0 l

theorem parseAcc_append (l1 l2 : List Char) :
    ∀ acc, parseAcc acc (l1 ++ l2) = parseAcc (parseAcc acc l1) l2 := by
  induction l1 with
  | nil => intro acc; rfl
  | cons a l ih => intro acc; exact ih (acc * 10 + charVal a)

theorem parseAcc_natDigits (n : Nat) :
    ∀ acc, parseAcc acc (natDigits n) = acc * 10 ^ (natDigits n).length + n := by
  induction n using Nat.strong_induction_on with
  | _ n ih =>
    intro acc
    rw [natDigits_unfold]
    by_cases h10 : n < 10
    · rw [if_pos h10]
      show acc * 10 + charVal (digitChar n) = acc * 10 ^ [digitChar n].length + n
      rw [charVal_digitChar h10]
      simp
    · rw [if_neg h10]
      have hmod : charVal (digitChar (n % 10)) = n % 10 := charVal_digitChar (by omega)
      calc parseAcc acc (natDigits (n / 10) ++ [digitChar (n % 10)])
          = parseAcc (parseAcc acc (natDigits (n / 10))) [digitChar (n % 10)] :=
            parseAcc_append _ _ _
        _ = parseAcc acc (natDigits (n / 10)) * 10 + charVal (digitChar (n % 10)) := rfl
        _ = (acc * 10 ^ (natDigits (n / 10)).length + n / 10) * 10 + n % 10 := by
            rw [ih (n / 10) (by omega) acc, hmod]
        _ = acc * 10 ^ ((natDigits (n / 10) ++ [digitChar (n % 10)]).length) + n := by
            have hlen : (natDigits (n / 10) ++ [digitChar (n % 10)]).length
                      = (natDigits (n / 10)).length + 1 := by simp
            rw [hlen, pow_succ, ← Nat.mul_assoc]
            generalize acc * 10 ^ (natDigits (n / 10)).length = A
            omega

theorem parseNat_natDigits (n : Nat) : parseNat (natDigits n) = n := by
  unfold parseNat
  rw [parseAcc_natDigits]
  simp

theorem parseAcc_zeros (z : Nat) : parseAcc 0 (List.replicate z '0') = 0 := by
  induction z with
  | zero => rfl
  | succ z ih =>
    show parseAcc (0 * 10 + charVal '0') (List.replicate z '0') = 0
    have : (0 : Nat) * 10 + charVal '0' = 0 := by decide
    rw [this]
    exact ih

theorem parseNat_padc (c w : Nat) : parseNat (padc c w) = c := by
  unfold parseNat padc
  rw [parseAcc_append, parseAcc_zeros]
  have := parseAcc_natDigits c 0
  simpa using this

theorem padc_inj {c1 c2 w1 w2 : Nat} (h : padc c1 w1 = padc c2 w2) : c1 = c2 := by
  have h1 := parseNat_padc c1 w1
  have h2 := parseNat_padc c2 w2
  rw [h] at h1
  omega

/-- Boolean test that p is a prefix of s (character-wise). -/
def startsWith : List Char → List Char → Bool
  | [], _ => true
  | _ :: _, [] => false
  | p :: ps, c :: cs => p == c && startsWith ps cs

theorem startsWith_iff (p : List Char) : ∀ s, startsWith p s = true ↔ ∃ t, s = p ++ t := by
  induction p with
  | nil =>
    intro s
    constructor
    · intro _; exact ⟨s, rfl⟩
    · intro _; rfl
  | cons a ps ih =>
    intro s
    cases s with
    | nil =>
      constructor
      · intro h; exact absurd h (by simp [startsWith])
      · rintro ⟨t, ht⟩; exact absurd ht (by simp)
    | cons b cs =>
      show (a == b && startsWith ps cs) = true ↔ _
      rw [Bool.and_eq_true, beq_iff_eq, ih cs]
      constructor
      · rintro ⟨rfl, t, rfl⟩; exact ⟨t, rfl⟩
      · rintro ⟨t, ht⟩
        rw [List.cons_append] at ht
        injection ht with h1 h2
        exact ⟨h1.symm, t, h2⟩

theorem startsWith_cons_false {p0 b : Char} {ps l : List Char} (h : p0 ≠ b) :
    startsWith (p0 :: ps) (b :: l) = false := by
  show (p0 == b && startsWith ps l) = false
  rw [beq_eq_false_iff_ne.mpr h]
  rfl

/-- Match of the counter token regex at the head of the string:
    "\x7bcounter\x7d" or "\x7bcounter:N\x7d" with N a nonempty digit run.
    Returns the parsed width and the remainder after the token. -/
def matchToken (s : List Char) : Option (Nat × List Char) :=
  if startsWith ("{counter}").data s then some (1, s.drop 9)
  else if startsWith ("\x7bcounter:").data s then
    let r := s.drop 9
    let ds := r.takeWhile Char.isDigit
    let rest := r.dropWhile Char.isDigit
    if ds = [] then none
    else if rest.head? = some ('}') then some (parseNat ds, rest.tail)
    else none
  else none

theorem mem_takeWhile_pred {p : Char → Bool} :
    ∀ (l : List Char) (x : Char), x ∈ List.takeWhile p l → p x = true := by
  intro l
  induction l with
  | nil => intro x hx; simp [List.takeWhile] at hx
  | cons a l ih =>
    intro x hx
    rw [List.takeWhile_cons] at hx
    by_cases ha : p a
    · rw [if_pos ha] at hx
      rcases List.mem_cons.mp hx with rfl | hmem
      · exact ha
      · exact ih x hmem
    · rw [if_neg ha] at hx
      simp at hx

/-- Structure of a successful token match: the input decomposes as the literal
    token text followed by the remainder. -/
theorem matchToken_some {s : List Char} {w : Nat} {r : List Char}
    (h : matchToken s = some (w, r)) :
    (s = ("{counter}").data ++ r ∧ w = 1) ∨
    (∃ ds, ds ≠ [] ∧ (∀ c ∈ ds, c.isDigit = true) ∧
      s = ("\x7bcounter:").data ++ ds ++ '}' :: r ∧ w = parseNat ds) := by
  unfold matchToken at h
  by_cases h1 : startsWith ("{counter}").data s
  · rw [if_pos h1] at h
    rcases (startsWith_iff _ s).mp h1 with ⟨t, rfl⟩
    injection h with h
    injection h with hw hr
    left
    have hdrop : (("{counter}").data ++ t).drop 9 = t := rfl
    rw [hdrop] at hr
    exact ⟨by rw [hr], hw.symm⟩
  · rw [if_neg h1] at h
    by_cases h2 : startsWith ("\x7bcounter:").data s
    · rw [if_pos h2] at h
      rcases (startsWith_iff _ s).mp h2 with ⟨t, rfl⟩
      have hdrop : (("\x7bcounter:").data ++ t).drop 9 = t := rfl
      rw [hdrop] at h
      by_cases hds : t.takeWhile Char.isDigit = []
      · rw [if_pos hds] at h; exact absurd h (by simp)
      · rw [if_neg hds] at h
        by_cases hhd : (t.dropWhile Char.isDigit).head? = some ('}')
        · rw [if_pos hhd] at h
          injection h with h
          injection h with hw hr
          right
          refine ⟨t.takeWhile Char.isDigit, hds, fun c hc => mem_takeWhile_pred t c hc, ?_, hw.symm⟩
          cases hdw : t.dropWhile Char.isDigit with
          | nil => rw [hdw] at hhd; exact absurd hhd (by simp)
          | cons b r2 =>
            rw [hdw] at hhd hr
            have hb : b = '}' := by simpa using hhd
            have hr2 : r2 = r := by simpa using hr
            have ht : t.takeWhile Char.isDigit ++ t.dropWhile Char.isDigit = t :=
              List.takeWhile_append_dropWhile _ _
            rw [hdw, hb, hr2] at ht
            conv_lhs => rw [← ht]
            rw [List.append_assoc]
        · rw [if_neg hhd] at h; exact absurd h (by simp)
    · rw [if_neg h2] at h; exact absurd h (by simp)

theorem matchToken_some_length {s : List Char} {w : Nat} {r : List Char}
    (h : matchToken s = some (w, r)) : r.length < s.length := by
  rcases matchToken_some h with ⟨hs, _⟩ | ⟨ds, _, _, hs, _⟩
  · rw [hs]
    have h9 : (("{counter}").data).length = 9 := rfl
    rw [List.length_append, h9]
    omega
  · rw [hs]
    have h9 : (("\x7bcounter:").data).length = 9 := rfl
    simp only [List.length_append, List.length_cons, h9]
    omega

theorem matchToken_none_head {a : Char} {l : List Char} (h : a ≠ '{') :
    matchToken (a :: l) = none := by
  unfold matchToken
  have h1 : startsWith ("{counter}").data (a :: l) = false :=
    startsWith_cons_false (fun he => h he.symm)
  have h2 : startsWith ("\x7bcounter:").data (a :: l) = false :=
    startsWith_cons_false (fun he => h he.symm)
  rw [h1, h2]
  rfl

theorem matchToken_none_second {a b : Char} {l : List Char} (h : b ≠ 'c') :
    matchToken (a :: b :: l) = none := by
  unfold matchToken
  have hc : ('c' == b) = false := beq_eq_false_iff_ne.mpr (fun he => h he.symm)
  have h1 : startsWith ("{counter}").data (a :: b :: l) = false := by
    show (('{' == a) && (('c' == b) && startsWith (("ounter\x7d").data) l)) = false
    rw [hc]
    simp
  have h2 : startsWith ("\x7bcounter:").data (a :: b :: l) = false := by
    show (('{' == a) && (('c' == b) && startsWith (("ounter:").data) l)) = false
    rw [hc]
    simp
  rw [h1, h2]
  rfl

/-- Fueled single pass over the template: literal characters stay, counter
    tokens become their parsed width.  Models one global pass of the JS
    counter-token regex replacement. -/
def scanTemplateF : Nat → List Char → List (Sum Char Nat)
  | 0, _ => []
  | _ + 1, [] => []
  | f + 1, ch :: rest =>
    match matchToken (ch :: rest) with
    | some (w, r) => Sum.inr w :: scanTemplateF f r
    | none => Sum.inl ch :: scanTemplateF f rest

/-- Template decomposition into literal characters and counter-token widths. -/
def scanTemplate (s : List Char) : List (Sum Char Nat) := scanTemplateF s.length s

theorem scanTemplateF_eq (f : Nat) :
    ∀ s : List Char, s.length ≤ f → scanTemplateF f s = scanTemplate s := by
  induction f using Nat.strong_induction_on with
  | _ f ih =>
    intro s hs
    match f, s with
    | 0, s =>
      have : s = [] := by
        cases s with
        | nil => rfl
        | cons a l => simp at hs
      rw [this]; rfl
    | f + 1, [] => rfl
    | f + 1, ch :: rest =>
      show (match matchToken (ch :: rest) with
            | some (w, r) => Sum.inr w :: scanTemplateF f r
            | none => Sum.inl ch :: scanTemplateF f rest)
          = scanTemplateF (ch :: rest).length (ch :: rest)
      have hlen : (ch :: rest).length = rest.length + 1 := rfl
      rw [hlen]
      show _ = (match matchToken (ch :: rest) with
            | some (w, r) => Sum.inr w :: scanTemplateF rest.length r
            | none => Sum.inl ch :: scanTemplateF rest.length rest)
      cases hm : matchToken (ch :: rest) with
      | none =>
        simp only
        rw [ih f (by omega) rest (by simp at hs; omega)]
        rw [ih rest.length (by omega) rest (by omega)]
      | some p =>
        cases p with
        | mk w r =>
          simp only
          have hr : r.length < rest.length + 1 := by
            have := matchToken_some_length hm
            simpa using this
          rw [ih f (by omega) r (by simp at hs; omega)]
          rw [ih rest.length (by omega) r (by omega)]

theorem scanTemplate_nil : scanTemplate [] = [] := rfl

theorem scanTemplate_cons (ch : Char) (rest : List Char) :
    scanTemplate (ch :: rest)
      = match matchToken (ch :: rest) with
        | some (w, r) => Sum.inr w :: scanTemplate r
        | none => Sum.inl ch :: scanTemplate rest := by
  show (match matchToken (ch :: rest) with
        | some (w, r) => Sum.inr w :: scanTemplateF rest.length r
        | none => Sum.inl ch :: scanTemplateF rest.length rest) = _
  cases hm : matchToken (ch :: rest) with
  | none =>
    simp only
    rw [scanTemplateF_eq rest.length rest (by omega)]
  | some p =>
    cases p with
    | mk w r =>
      simp only
      have hr : r.length < rest.length + 1 := by
        have := matchToken_some_length hm
        simpa using this
      rw [scanTemplateF_eq rest.length r (by omega)]

/-- Render the scanned template for a given counter value: literal characters
    unchanged, each counter token replaced by the zero-padded counter. -/
def renderPieces (c : Nat) : List (Sum Char Nat) → List Char
  | [] => []
  | Sum.inl ch :: ps => ch :: renderPieces c ps
  | Sum.inr w :: ps => padc c w ++ renderPieces c ps

/-- Test of the JS regex counter-token test on a raw template string. -/
def hasCounterToken (s : List Char) : Bool := (scanTemplate s).any Sum.isRight

/-- Rendered length contributed by one template piece when the counter has D
    decimal digits. -/
def pieceSize (D : Nat) : Sum Char Nat → Nat
  | Sum.inl _ => 1
  | Sum.inr w => max w D

theorem renderPieces_length (c : Nat) :
    ∀ ps : List (Sum Char Nat),
      (renderPieces c ps).length = ((ps.map (pieceSize (natDigits c).length)).sum) := by
  intro ps
  induction ps with
  | nil => rfl
  | cons p ps ih =>
    cases p with
    | inl ch =>
      show (ch :: renderPieces c ps).length = _
      simp [ih, pieceSize]
      omega
    | inr w =>
      show (padc c w ++ renderPieces c ps).length = _
      simp [ih, pieceSize, padc_length]

theorem pieceSize_mono {D1 D2 : Nat} (h : D1 ≤ D2) (p : Sum Char Nat) :
    pieceSize D1 p ≤ pieceSize D2 p := by
  cases p with
  | inl ch => exact le_refl _
  | inr w => simp [pieceSize]; omega

theorem sum_pieceSize_mono {D1 D2 : Nat} (h : D1 ≤ D2) :
    ∀ ps : List (Sum Char Nat),
      (ps.map (pieceSize D1)).sum ≤ (ps.map (pieceSize D2)).sum := by
  intro ps
  induction ps with
  | nil => exact le_refl _
  | cons p ps ih =>
    simp only [List.map_cons, List.sum_cons]
    exact Nat.add_le_add (pieceSize_mono h p) ih

/-- If the template has at least one counter token, rendering is injective in
    the counter value: two different counters give different strings. -/
theorem renderPieces_inj :
    ∀ ps : List (Sum Char Nat), ps.any Sum.isRight = true →
      ∀ c1 c2 : Nat, renderPieces c1 ps = renderPieces c2 ps → c1 = c2 := by
  intro ps
  induction ps with
  | nil => intro h; simp at h
  | cons p ps ih =>
    cases p with
    | inl ch =>
      intro hany c1 c2 heq
      have hany2 : ps.any Sum.isRight = true := by
        simpa [Sum.isRight] using hany
      have : renderPieces c1 ps = renderPieces c2 ps := by
        have : ch :: renderPieces c1 ps = ch :: renderPieces c2 ps := heq
        injection this
      exact ih hany2 c1 c2 this
    | inr w =>
      intro _ c1 c2 heq
      have heq2 : padc c1 w ++ renderPieces c1 ps = padc c2 w ++ renderPieces c2 ps := heq
      have hlen := congrArg List.length heq2
      have hL1 : (padc c1 w ++ renderPieces c1 ps).length
          = max w (natDigits c1).length + (ps.map (pieceSize (natDigits c1).length)).sum := by
        simp [padc_length, renderPieces_length]
      have hL2 : (padc c2 w ++ renderPieces c2 ps).length
          = max w (natDigits c2).length + (ps.map (pieceSize (natDigits c2).length)).sum := by
        simp [padc_length, renderPieces_length]
      rw [hL1, hL2] at hlen
      have hmax : max w (natDigits c1).length = max w (natDigits c2).length := by
        rcases Nat.le_total (natDigits c1).length (natDigits c2).length with hD | hD
        · have hs := sum_pieceSize_mono hD ps
          have hm : max w (natDigits c1).length ≤ max w (natDigits c2).length := by omega
          omega
        · have hs := sum_pieceSize_mono hD ps
          have hm : max w (natDigits c2).length ≤ max w (natDigits c1).length := by omega
          omega
      have hplen : (padc c1 w).length = (padc c2 w).length := by
        rw [padc_length, padc_length, hmax]
      have := (List.append_inj heq2 hplen).1
      exact padc_inj this

/-- Fueled replacement of every occurrence of pat by repl, left to right,
    non-overlapping: models JS result.split(pat).join(repl). -/
def replaceSubF (pat repl : List Char) : Nat → List Char → List Char
  | 0, s => s
  | _ + 1, [] => []
  | f + 1, ch :: rest =>
    if startsWith pat (ch :: rest) then repl ++ replaceSubF pat repl f ((ch :: rest).drop pat.length)
    else ch :: replaceSubF pat repl f rest

/-- Replace every occurrence of pat by repl in s. -/
def replaceSub (pat repl s : List Char) : List Char := replaceSubF pat repl s.length s

theorem replaceSubF_eq (pat repl : List Char) (hpat : pat ≠ []) (f : Nat) :
    ∀ s : List Char, s.length ≤ f → replaceSubF pat repl f s = replaceSub pat repl s := by
  induction f using Nat.strong_induction_on with
  | _ f ih =>
    intro s hs
    match f, s with
    | 0, s =>
      have : s = [] := by
        cases s with
        | nil => rfl
        | cons a l => simp at hs
      rw [this]; rfl
    | f + 1, [] => rfl
    | f + 1, ch :: rest =>
      have hp1 : 1 ≤ pat.length := by
        cases pat with
        | nil => exact absurd rfl hpat
        | cons a l => simp
      show (if startsWith pat (ch :: rest) then _ else _)
          = replaceSubF pat repl (ch :: rest).length (ch :: rest)
      have hlen : (ch :: rest).length = rest.length + 1 := rfl
      rw [hlen]
      show _ = (if startsWith pat (ch :: rest) then
            repl ++ replaceSubF pat repl rest.length ((ch :: rest).drop pat.length)
          else ch :: replaceSubF pat repl rest.length rest)
      have hs2 : rest.length + 1 ≤ f + 1 := by simpa using hs
      by_cases hsw : startsWith pat (ch :: rest)
      · rw [if_pos hsw, if_pos hsw]
        have hd : ((ch :: rest).drop pat.length).length ≤ rest.length := by
          simp [List.length_drop]
          omega
        rw [ih f (by omega) _ (by omega)]
        rw [ih rest.length (by omega) _ (by omega)]
      · rw [if_neg hsw, if_neg hsw]
        rw [ih f (by omega) rest (by omega)]
        rw [ih rest.length (by omega) rest (by omega)]

theorem replaceSub_nil (pat repl : List Char) : replaceSub pat repl [] = [] := rfl

theorem replaceSub_cons (pat repl : List Char) (hpat : pat ≠ []) (ch : Char) (rest : List Char) :
    replaceSub pat repl (ch :: rest)
      = if startsWith pat (ch :: rest) then
          repl ++ replaceSub pat repl ((ch :: rest).drop pat.length)
        else ch :: replaceSub pat repl rest := by
  have hp1 : 1 ≤ pat.length := by
    cases pat with
    | nil => exact absurd rfl hpat
    | cons a l => simp
  show (if startsWith pat (ch :: rest) then
          repl ++ replaceSubF pat repl rest.length ((ch :: rest).drop pat.length)
        else ch :: replaceSubF pat repl rest.length rest) = _
  by_cases hsw : startsWith pat (ch :: rest)
  · rw [if_pos hsw, if_pos hsw]
    have hd : ((ch :: rest).drop pat.length).length ≤ rest.length := by
      simp [List.length_drop]
      omega
    rw [replaceSubF_eq pat repl hpat rest.length _ (by omega)]
  · rw [if_neg hsw, if_neg hsw]
    rw [replaceSubF_eq pat repl hpat rest.length rest (by omega)]

/-- A replacement whose pattern starts with a brace walks unchanged through a
    stretch of text containing no brace. -/
theorem replaceSub_no_brace_append {p2 : List Char} (repl : List Char) :
    ∀ a t : List Char, (∀ x ∈ a, x ≠ '{') →
      replaceSub ('{' :: p2) repl (a ++ t) = a ++ replaceSub ('{' :: p2) repl t := by
  intro a
  induction a with
  | nil => intro t _; rfl
  | cons x a ih =>
    intro t hmem
    have hx : x ≠ '{' := hmem x (List.mem_cons_self x a)
    have hsw : startsWith ('{' :: p2) (x :: (a ++ t)) = false :=
      startsWith_cons_false (fun he => hx he.symm)
    rw [List.cons_append]
    rw [replaceSub_cons ('{' :: p2) repl (by simp) x (a ++ t)]
    rw [hsw]
    show x :: replaceSub ('{' :: p2) repl (a ++ t) = _
    rw [ih t (fun y hy => hmem y (List.mem_cons_of_mem x hy))]
    rfl

theorem hasCounterToken_nil : hasCounterToken [] = false := rfl

theorem hasCounterToken_cons_none {ch : Char} {rest : List Char}
    (h : matchToken (ch :: rest) = none) :
    hasCounterToken (ch :: rest) = hasCounterToken rest := by
  unfold hasCounterToken
  rw [scanTemplate_cons, h]
  simp [Sum.isRight]

theorem hasCounterToken_cons_some {ch : Char} {rest : List Char} {w : Nat} {r : List Char}
    (h : matchToken (ch :: rest) = some (w, r)) :
    hasCounterToken (ch :: rest) = true := by
  unfold hasCounterToken
  rw [scanTemplate_cons, h]
  simp [Sum.isRight]

theorem hasCounterToken_cons_not_brace {a : Char} (t : List Char) (h : a ≠ '{') :
    hasCounterToken (a :: t) = hasCounterToken t :=
  hasCounterToken_cons_none (matchToken_none_head h)

theorem hasCounterToken_brace_not_c {b : Char} (t : List Char) (h : b ≠ 'c') :
    hasCounterToken ('{' :: b :: t) = hasCounterToken (b :: t) :=
  hasCounterToken_cons_none (matchToken_none_second h)

theorem hasCounterToken_append_right (a : List Char) :
    ∀ t : List Char, hasCounterToken t = true → hasCounterToken (a ++ t) = true := by
  induction a with
  | nil => intro t h; exact h
  | cons ch a ih =>
    intro t h
    rw [List.cons_append]
    cases hm : matchToken (ch :: (a ++ t)) with
    | none => rw [hasCounterToken_cons_none hm]; exact ih t h
    | some p =>
      have hm2 : matchToken (ch :: (a ++ t)) = some (p.1, p.2) := by rw [hm]
      exact hasCounterToken_cons_some hm2

theorem takeWhile_append_all {p : Char → Bool} {a : Char} (ha : p a = false) :
    ∀ (l t : List Char), (∀ x ∈ l, p x = true) →
      List.takeWhile p (l ++ a :: t) = l := by
  intro l
  induction l with
  | nil =>
    intro t _
    rw [List.nil_append, List.takeWhile_cons, ha]
    simp
  | cons x l ih =>
    intro t hmem
    rw [List.cons_append, List.takeWhile_cons, hmem x (List.mem_cons_self x l)]
    rw [ih t (fun y hy => hmem y (List.mem_cons_of_mem x hy))]
    simp

theorem dropWhile_append_all {p : Char → Bool} {a : Char} (ha : p a = false) :
    ∀ (l t : List Char), (∀ x ∈ l, p x = true) →
      List.dropWhile p (l ++ a :: t) = a :: t := by
  intro l
  induction l with
  | nil =>
    intro t _
    rw [List.nil_append, List.dropWhile_cons, ha]
    simp
  | cons x l ih =>
    intro t hmem
    rw [List.cons_append, List.dropWhile_cons, hmem x (List.mem_cons_self x l)]
    simp only [if_pos rfl]
    exact ih t (fun y hy => hmem y (List.mem_cons_of_mem x hy))

theorem startsWith_append_self (p t : List Char) : startsWith p (p ++ t) = true :=
  (startsWith_iff p (p ++ t)).mpr ⟨t, rfl⟩

theorem isDigit_ne_brace {c : Char} (h : c.isDigit = true) : c ≠ '{' := by
  intro he
  rw [he] at h
  exact absurd h (by decide)

/-- Token match at the head of a no-width counter token followed by anything. -/
theorem matchToken_token_append (x : List Char) :
    matchToken (("{counter}").data ++ x)
      = some (1, ((("{counter}").data ++ x)).drop 9) := by
  unfold matchToken
  rw [if_pos (startsWith_append_self _ x)]

/-- Token match at the head of a width counter token followed by anything. -/
theorem matchToken_wtoken_append {ds : List Char} (hds : ds ≠ [])
    (hdig : ∀ c ∈ ds, c.isDigit = true) (x : List Char) :
    matchToken (("\x7bcounter:").data ++ ds ++ '}' :: x) = some (parseNat ds, x) := by
  have h1 : startsWith ("{counter}").data (("\x7bcounter:").data ++ ds ++ '}' :: x) = false := rfl
  have h2 : startsWith ("\x7bcounter:").data (("\x7bcounter:").data ++ ds ++ '}' :: x) = true :=
    startsWith_append_self _ _
  have hdrop : ((("\x7bcounter:").data ++ ds ++ '}' :: x)).drop 9 = ds ++ '}' :: x := rfl
  have htw : (ds ++ '}' :: x).takeWhile Char.isDigit = ds :=
    takeWhile_append_all (by decide) ds x hdig
  have hdw : (ds ++ '}' :: x).dropWhile Char.isDigit = '}' :: x :=
    dropWhile_append_all (by decide) ds x hdig
  unfold matchToken
  simp only [h1, h2, hdrop, htw, hdw]
  simp [hds]

/-- Replacing occurrences of a date token (a brace-initial pattern that can
    never overlap a counter token) preserves the presence of a counter token. -/
theorem replaceSub_preserves_token (p2 repl : List Char)
    (hskip : ∀ t : List Char, hasCounterToken (('{' :: p2) ++ t) = hasCounterToken t) :
    ∀ (n : Nat) (s : List Char), s.length ≤ n → hasCounterToken s = true →
      hasCounterToken (replaceSub ('{' :: p2) repl s) = true := by
  intro n
  induction n with
  | zero =>
    intro s hs htok
    have hnil : s = [] := by
      cases s with
      | nil => rfl
      | cons a l => simp at hs
    rw [hnil, hasCounterToken_nil] at htok
    exact absurd htok (by simp)
  | succ n ih =>
    intro s hs htok
    cases s with
    | nil =>
      rw [hasCounterToken_nil] at htok
      exact absurd htok (by simp)
    | cons ch rest =>
      rw [replaceSub_cons _ repl (by simp) ch rest]
      by_cases hsw : startsWith ('{' :: p2) (ch :: rest) = true
      · rw [if_pos hsw]
        rcases (startsWith_iff _ _).mp hsw with ⟨s2, hs2⟩
        have hdrop : (ch :: rest).drop ('{' :: p2).length = s2 := by
          rw [hs2]
          exact List.drop_left _ _
        rw [hdrop]
        have htok2 : hasCounterToken s2 = true := by
          rw [hs2, hskip s2] at htok
          exact htok
        have hlen2 : s2.length ≤ n := by
          have hl := congrArg List.length hs2
          simp at hl
          simp at hs
          omega
        exact hasCounterToken_append_right repl _ (ih s2 hlen2 htok2)
      · rw [if_neg hsw]
        cases hm : matchToken (ch :: rest) with
        | none =>
          rw [hasCounterToken_cons_none hm] at htok
          have hrec := ih rest (by simp at hs; omega) htok
          exact hasCounterToken_append_right [ch] _ hrec
        | some pr =>
          obtain ⟨w, r⟩ := pr
          rcases matchToken_some hm with ⟨hs1, _⟩ | ⟨ds, hds, hdig, hs1, _⟩
          · injection hs1 with hch hrest
            have e1 : replaceSub ('{' :: p2) repl rest
                = ("counter\x7d").data ++ replaceSub ('{' :: p2) repl r := by
              rw [hrest]
              exact replaceSub_no_brace_append repl _ r (by decide)
            rw [hch, e1]
            exact hasCounterToken_cons_some
              (matchToken_token_append (replaceSub ('{' :: p2) repl r))
          · injection hs1 with hch hrest
            simp only [List.append_eq] at hrest
            have e1 : replaceSub ('{' :: p2) repl ('}' :: r) = '}' :: replaceSub ('{' :: p2) repl r := by
              rw [replaceSub_cons _ repl (by simp) '}' r]
              rw [startsWith_cons_false (by decide)]
              simp
            have e2 : replaceSub ('{' :: p2) repl (ds ++ '}' :: r)
                = ds ++ ('}' :: replaceSub ('{' :: p2) repl r) := by
              rw [replaceSub_no_brace_append repl ds ('}' :: r)
                (fun x hx => isDigit_ne_brace (hdig x hx)), e1]
            have e3 : replaceSub ('{' :: p2) repl rest
                = (("counter:").data ++ ds) ++ ('}' :: replaceSub ('{' :: p2) repl r) := by
              rw [hrest, List.append_assoc]
              rw [replaceSub_no_brace_append repl (("counter:").data) _ (by decide), e2]
              rw [List.append_assoc]
            rw [hch, e3]
            exact hasCounterToken_cons_some
              (matchToken_wtoken_append hds hdig (replaceSub ('{' :: p2) repl r))

theorem hasCounterToken_yyyy_skip (t : List Char) :
    hasCounterToken (("{YYYY}").data ++ t) = hasCounterToken t := by
  show hasCounterToken ('{' :: 'Y' :: 'Y' :: 'Y' :: 'Y' :: '}' :: t) = _
  rw [hasCounterToken_brace_not_c _ (by decide)]
  rw [hasCounterToken_cons_not_brace _ (by decide)]
  rw [hasCounterToken_cons_not_brace _ (by decide)]
  rw [hasCounterToken_cons_not_brace _ (by decide)]
  rw [hasCounterToken_cons_not_brace _ (by decide)]
  rw [hasCounterToken_cons_not_brace _ (by decide)]

theorem hasCounterToken_yy_skip (t : List Char) :
    hasCounterToken (("{YY}").data ++ t) = hasCounterToken t := by
  show hasCounterToken ('{' :: 'Y' :: 'Y' :: '}' :: t) = _
  rw [hasCounterToken_brace_not_c _ (by decide)]
  rw [hasCounterToken_cons_not_brace _ (by decide)]
  rw [hasCounterToken_cons_not_brace _ (by decide)]
  rw [hasCounterToken_cons_not_brace _ (by decide)]

theorem hasCounterToken_mm_skip (t : List Char) :
    hasCounterToken (("{MM}").data ++ t) = hasCounterToken t := by
  show hasCounterToken ('{' :: 'M' :: 'M' :: '}' :: t) = _
  rw [hasCounterToken_brace_not_c _ (by decide)]
  rw [hasCounterToken_cons_not_brace _ (by decide)]
  rw [hasCounterToken_cons_not_brace _ (by decide)]
  rw [hasCounterToken_cons_not_brace _ (by decide)]

theorem hasCounterToken_dd_skip (t : List Char) :
    hasCounterToken (("{DD}").data ++ t) = hasCounterToken t := by
  show hasCounterToken ('{' :: 'D' :: 'D' :: '}' :: t) = _
  rw [hasCounterToken_brace_not_c _ (by decide)]
  rw [hasCounterToken_cons_not_brace _ (by decide)]
  rw [hasCounterToken_cons_not_brace _ (by decide)]
  rw [hasCounterToken_cons_not_brace _ (by decide)]

/-- Calendar date as read from the JS Date object (month is getMonth() + 1,
    i.e. 1-indexed). -/
structure JsDate where
  year : Nat
  month : Nat
  day : Nat
deriving DecidableEq

/-- String(now.getFullYear()). -/
def yyyyStr (d : JsDate) : List Char := natDigits d.year

/-- String(now.getFullYear()).slice(-2). -/
def yyStr (d : JsDate) : List Char :=
  (natDigits d.year).drop ((natDigits d.year).length - 2)

/-- pad(now.getMonth() + 1, 2). -/
def mmStr (d : JsDate) : List Char := padc d.month 2

/-- pad(now.getDate(), 2). -/
def ddStr (d : JsDate) : List Char := padc d.day 2

/-- Date token substitution, in the insertion order of the tokens object:
    YYYY, then YY, then MM, then DD, each by split/join replacement. -/
def applyDateTokens (d : JsDate) (s : List Char) : List Char :=
  replaceSub (("{DD}").data) (ddStr d)
    (replaceSub (("{MM}").data) (mmStr d)
      (replaceSub (("{YY}").data) (yyStr d)
        (replaceSub (("{YYYY}").data) (yyyyStr d) s)))

/-- Default invoice number template. -/
def defaultTemplate : List Char := ("INV-{YYYY}-{counter:5}").data

/-- formatInvoiceNumber of create-native-invoice, on character lists.  The
    template may be null (none).  A falsy (null or empty) template defaults;
    the defensive counter-suffix check tests the original template. -/
def formatInvoiceNumberL (template : Option (List Char)) (counter : Nat) (d : JsDate) :
    List Char :=
  let t0 := match template with
            | none => defaultTemplate
            | some t => if t = [] then defaultTemplate else t
  let substituted := renderPieces counter (scanTemplate (applyDateTokens d t0))
  let origTest := match template with
                  | none => []
                  | some t => t
  if hasCounterToken origTest then substituted
  else substituted ++ '-' :: padc counter 1

/-- formatInvoiceNumber on strings, the signature used by the handler. -/
def formatInvoiceNumber (template : Option String) (counter : Nat) (d : JsDate) : String :=
  String.mk (formatInvoiceNumberL (template.map String.data) counter d)

theorem formatL_none (c : Nat) (d : JsDate) :
    formatInvoiceNumberL none c d
      = renderPieces c (scanTemplate (applyDateTokens d defaultTemplate)) ++ '-' :: padc c 1 :=
  rfl

theorem formatL_some (t : List Char) (c : Nat) (d : JsDate) :
    formatInvoiceNumberL (some t) c d
      = if hasCounterToken t then
          renderPieces c (scanTemplate (applyDateTokens d (if t = [] then defaultTemplate else t)))
        else
          renderPieces c (scanTemplate (applyDateTokens d (if t = [] then defaultTemplate else t)))
            ++ '-' :: padc c 1 :=
  rfl

theorem applyDateTokens_preserves (d : JsDate) (s : List Char)
    (h : hasCounterToken s = true) :
    hasCounterToken (applyDateTokens d s) = true := by
  have h1 := replaceSub_preserves_token _ (yyyyStr d) hasCounterToken_yyyy_skip
    s.length s (le_refl _) h
  have h2 := replaceSub_preserves_token _ (yyStr d) hasCounterToken_yy_skip
    _ _ (le_refl _) h1
  have h3 := replaceSub_preserves_token _ (mmStr d) hasCounterToken_mm_skip
    _ _ (le_refl _) h2
  exact replaceSub_preserves_token _ (ddStr d) hasCounterToken_dd_skip
    _ _ (le_refl _) h3

/-- Two invoice bodies that end in the dash-separated unpadded counter agree on
    the counter whenever the whole strings agree. -/
theorem append_digits_suffix_inj {b1 b2 : List Char} {c1 c2 : Nat}
    (h : b1 ++ '-' :: natDigits c1 = b2 ++ '-' :: natDigits c2) : c1 = c2 := by
  have hr := congrArg List.reverse h
  rw [List.reverse_append, List.reverse_cons, List.append_assoc] at hr
  rw [List.reverse_append, List.reverse_cons, List.append_assoc] at hr
  have hd1 : ∀ x ∈ (natDigits c1).reverse, Char.isDigit x = true :=
    fun x hx => natDigits_all_digits c1 x (List.mem_reverse.mp hx)
  have hd2 : ∀ x ∈ (natDigits c2).reverse, Char.isDigit x = true :=
    fun x hx => natDigits_all_digits c2 x (List.mem_reverse.mp hx)
  have ht := congrArg (List.takeWhile Char.isDigit) hr
  rw [show ['-'] ++ b1.reverse = '-' :: b1.reverse from rfl] at ht
  rw [show ['-'] ++ b2.reverse = '-' :: b2.reverse from rfl] at ht
  rw [takeWhile_append_all (by decide) _ b1.reverse hd1] at ht
  rw [takeWhile_append_all (by decide) _ b2.reverse hd2] at ht
  have hnd : natDigits c1 = natDigits c2 := by
    have := congrArg List.reverse ht
    simpa using this
  have h1 := parseNat_natDigits c1
  rw [hnd, parseNat_natDigits c2] at h1
  exact h1.symm

/-- The formatter is injective in the counter for every fixed template
    (including null) and date. -/
theorem formatInvoiceNumberL_inj (template : Option (List Char)) (d : JsDate) :
    ∀ c1 c2 : Nat,
      formatInvoiceNumberL template c1 d = formatInvoiceNumberL template c2 d → c1 = c2 := by
  intro c1 c2 h
  cases template with
  | none =>
    rw [formatL_none, formatL_none, padc_one, padc_one] at h
    exact append_digits_suffix_inj h
  | some t =>
    rw [formatL_some, formatL_some] at h
    by_cases htok : hasCounterToken t = true
    · rw [if_pos htok, if_pos htok] at h
      have htne : t ≠ [] := by
        intro he
        rw [he, hasCounterToken_nil] at htok
        exact absurd htok (by simp)
      rw [if_neg htne] at h
      exact renderPieces_inj _ (applyDateTokens_preserves d t htok) c1 c2 h
    · have hf : hasCounterToken t = false := by
        cases hh : hasCounterToken t with
        | false => rfl
        | true => exact absurd hh htok
      rw [hf] at h
      rw [if_neg Bool.false_ne_true, if_neg Bool.false_ne_true, padc_one, padc_one] at h
      exact append_digits_suffix_inj h

theorem formatInvoiceNumber_inj (template : Option String) (d : JsDate) :
    ∀ c1 c2 : Nat,
      formatInvoiceNumber template c1 d = formatInvoiceNumber template c2 d → c1 = c2 := by
  intro c1 c2 h
  exact formatInvoiceNumberL_inj (template.map String.data) d c1 c2 (congrArg String.data h)

/-- Recipient block of the request payload (logging only). -/
structure Recipient where
  name : Option String := none
  addressLine1 : Option String := none
  addressLine2 : Option String := none
deriving DecidableEq

/-- One line item of the request payload (unit price in cents). -/
structure Item where
  description : String
  quantity : ℚ
  unitPrice : Nat
deriving DecidableEq

/-- Validated request payload (PayloadSchema). -/
structure Payload where
  agencyId : String
  locationId : String
  contactId : String
  transactionId : String
  isSmallBusiness : Bool
  recipient : Option Recipient := none
  items : List Item
deriving DecidableEq

/-- Redis hash agency:[agencyId]; an absent hash is the unconfigured state. -/
structure AgencyHash where
  invoice_format : Option String := none
  invoice_counter : Nat := 0
  ghl_api_key : Option String := none
deriving DecidableEq

/-- One structured entry of the invoice_logs list; unset fields are absent. -/
structure LogEntry where
  ts : Nat
  level : String
  message : String
  agencyId : Option String := none
  transactionId : Option String := none
  invoiceNumber : Option String := none
  counter : Option Nat := none
  httpStatus : Option Nat := none
  errorCount : Option Nat := none
  poison : Option Bool := none
  ghlInvoiceId : Option String := none
  errText : Option String := none
  keySource : Option String := none
  recipient : Option Recipient := none
  respText : Option String := none
deriving DecidableEq

/-- Shared Upstash Redis state visible to the function. -/
structure RedisState where
  agencies : String → Option AgencyHash
  txnErrors : String → String → Nat
  txnExpiry : String → String → Option Nat
  logs : List LogEntry

/-- Overwrite one agency hash. -/
def setAgency (st : RedisState) (a : String) (h : AgencyHash) : RedisState :=
  { st with agencies := fun x => if x = a then some h else st.agencies x }

/-- HINCRBY agency:[id] invoice_counter 1 (creates the hash when missing);
    returns the incremented value. -/
def hincrbyCounter (a : String) (st : RedisState) : Nat × RedisState :=
  match st.agencies a with
  | none =>
    (1, setAgency st a { invoice_format := none, invoice_counter := 1, ghl_api_key := none })
  | some h =>
    (h.invoice_counter + 1, setAgency st a { h with invoice_counter := h.invoice_counter + 1 })

/-- LPUSH invoice_logs + LTRIM 0 499; a sink failure is swallowed and leaves
    the state unchanged. -/
def logEvent (sink : LogEntry → Bool) (e : LogEntry) (st : RedisState) : RedisState :=
  if sink e then { st with logs := (e :: st.logs).take 500 } else st

/-- JS a || b for an optional string a, where the empty string is falsy. -/
def jsOrStr (a : Option String) (b : String) : String :=
  match a with
  | none => b
  | some s => if s = ("") then b else s

/-- JS truthiness filter for an optional string (empty string is falsy). -/
def jsStrOpt (a : Option String) : Option String :=
  match a with
  | none => none
  | some s => if s = ("") then none else some s

/-- JS status || deflt where status 0 or absent falls back. -/
def jsOrNat (status : Option Nat) (deflt : Nat) : Nat :=
  match status with
  | none => deflt
  | some s => if s = 0 then deflt else s

/-- nextInvoiceNumber: atomic HINCRBY, then format with the configured
    template (config.invoice_format || default). -/
def nextInvoiceNumber (agencyId : String) (config : AgencyHash) (st : RedisState) (d : JsDate) :
    (Nat × String) × RedisState :=
  let res := hincrbyCounter agencyId st
  let template := jsOrStr config.invoice_format ("INV-{YYYY}-{counter:5}")
  ((res.1, formatInvoiceNumber (some template) res.1 d), res.2)

/-- incTxnError: INCR txn_error_count:[agencyId]:[transactionId]; on the first
    increment set a 24h expiry; returns the new count. -/
def incTxnError (agencyId transactionId : String) (now : Nat) (st : RedisState) :
    Nat × RedisState :=
  let count := st.txnErrors agencyId transactionId + 1
  let st1 := { st with txnErrors := fun a t =>
                 if a = agencyId ∧ t = transactionId then count else st.txnErrors a t }
  if count = 1 then
    (count, { st1 with txnExpiry := fun a t =>
                if a = agencyId ∧ t = transactionId then some (now + 24 * 60 * 60)
                else st.txnExpiry a t })
  else (count, st1)

/-- Tax object sent to GoHighLevel. -/
structure TaxSpec where
  name : String
  rate : Nat
  type : String
deriving DecidableEq

/-- Line item mapped for GoHighLevel; cents are converted to currency units
    (exact rational arithmetic stands in for the JS float round-trip). -/
structure GhlLineItem where
  description : String
  qty : ℚ
  unit_price : ℚ
deriving DecidableEq

structure GhlInvoiceData where
  items : List GhlLineItem
  invoiceNumber : String
  terms : String
  notes : String
  taxType : String
  tax : TaxSpec
deriving DecidableEq

/-- Payload of the downstream POST /invoices/ call. -/
structure GhlPayload where
  locationId : String
  contactId : String
  status : String
  invoiceData : GhlInvoiceData
deriving DecidableEq

/-- Relevant fields of a successful downstream response body. -/
structure GhlRespData where
  id : Option String := none
  invoiceId : Option String := none
  dataId : Option String := none
deriving DecidableEq

/-- Behaviour of the downstream billing call: success with a response body and
    status, or failure with an optional status/body and an error message. -/
inductive GhlResult where
  | success (respData : GhlRespData) (status : Nat)
  | failure (status : Option Nat) (respData : Option String) (errMsg : String)
deriving DecidableEq

/-- Response bodies by return site of the handler. -/
inductive RespBody where
  | methodNotAllowed
  | unauthorized
  | invalidJson
  | validationFailed
  | forbidden
  | serverMisconfig
  | internalError
  | poisonPill (transactionId : String) (errorCount : Nat)
  | createFailed (details : Option String)
  | created (invoiceId : Option String) (invoiceNumber : String)
deriving DecidableEq

/-- HTTP response of the handler. -/
structure Response where
  statusCode : Nat
  body : RespBody
deriving DecidableEq

/-- Outcome of JSON parsing plus zod validation of the request body. -/
inductive ParsedBody where
  | invalidJson
  | validationFailed
  | valid (p : Payload)
deriving DecidableEq

/-- Incoming request (the api key header lookups collapsed into one field). -/
structure Request where
  httpMethod : String
  apiKey : Option String
  body : ParsedBody
deriving DecidableEq

/-- Environment variables read by the handler. -/
structure Env where
  myInvoiceApiKey : Option String := none
  ghlApiKey : Option String := none
deriving DecidableEq

/-- Availability of the individual Redis operations (false = the operation
    throws, landing in the catch-all). -/
structure RedisBehavior where
  hgetallOk : Bool := true
  hincrbyOk : Bool := true
  incrOk : Bool := true
deriving DecidableEq

/-- API key gate: !MY_INVOICE_API_KEY || apiKey !== MY_INVOICE_API_KEY. -/
def apiKeyRejected (envKey reqKey : Option String) : Bool :=
  match envKey with
  | none => true
  | some k => if k = ("") then true else if reqKey = some k then false else true


/-- Catch-all log entry written when a Redis operation throws. -/
def unhandledEntry (p : Payload) (now : Nat) : LogEntry :=
  { ts := now, level := ("error"),
    message := ("Unhandled error in create-native-invoice"),
    agencyId := some p.agencyId, transactionId := some p.transactionId,
    errText := some ("redis failure") }

/-- Log entry for a request whose tenant has no configuration. -/
def configMissingEntry (p : Payload) (now : Nat) : LogEntry :=
  { ts := now, level := ("warn"), message := ("Agency config missing"),
    agencyId := some p.agencyId, transactionId := some p.transactionId }

/-- Log entry when neither the agency nor the environment has a GHL key. -/
def noKeyEntry (p : Payload) (now counter : Nat) (invoiceNumber : String) : LogEntry :=
  { ts := now, level := ("error"), message := ("No GHL key configured (agency or env)"),
    agencyId := some p.agencyId, transactionId := some p.transactionId,
    invoiceNumber := some invoiceNumber, counter := some counter }

/-- Log entry for a failed downstream invoice creation. -/
def failEntry (p : Payload) (now counter : Nat) (invoiceNumber : String)
    (status : Option Nat) (respData : Option String) (errMsg : String)
    (poison : Bool) (count : Nat) : LogEntry :=
  { ts := now, level := ("error"), message := ("Native invoice creation failed"),
    agencyId := some p.agencyId, transactionId := some p.transactionId,
    invoiceNumber := some invoiceNumber, counter := some counter,
    httpStatus := status, respText := respData, errText := some errMsg,
    poison := some poison, errorCount := some count }

/-- Log entry for a successful downstream invoice creation. -/
def successEntry (p : Payload) (now : Nat) (invoiceNumber : String)
    (ghlInvoiceId : Option String) (status : Nat) (keySource : String) : LogEntry :=
  { ts := now, level := ("info"), message := ("Native invoice created"),
    agencyId := some p.agencyId, transactionId := some p.transactionId,
    invoiceNumber := some invoiceNumber, ghlInvoiceId := ghlInvoiceId,
    httpStatus := some status, recipient := p.recipient, keySource := some keySource }

/-- responseData.id || responseData.invoiceId || responseData.data?.id || null. -/
def extractGhlInvoiceId (respData : GhlRespData) : Option String :=
  match jsStrOpt respData.id with
  | some v => some v
  | none =>
    match jsStrOpt respData.invoiceId with
    | some v => some v
    | none => jsStrOpt respData.dataId

/-- Line items and tax as mapped for the downstream payload. -/
def buildGhlPayload (p : Payload) (invoiceNumber : String) : GhlPayload :=
  { locationId := p.locationId, contactId := p.contactId, status := ("draft"),
    invoiceData :=
    { items := p.items.map (fun it =>
        ({ description := it.description, qty := it.quantity,
           unit_price := (it.unitPrice : ℚ) / 100 } : GhlLineItem)),
      invoiceNumber := invoiceNumber, terms := (""), notes := (""),
      taxType := ("inclusive"),
      tax := if p.isSmallBusiness then
               { name := ("Umsatzsteuer"), rate := 0, type := ("PERCENT") }
             else
               { name := ("19% MwSt."), rate := 19, type := ("PERCENT") } } }

/-- Effective GHL key: (config.ghl_api_key && String(...)) || GHL_API_KEY,
    with a final truthiness test (none means misconfigured). -/
def effGhlKey (config : AgencyHash) (env : Env) : Option String :=
  jsStrOpt (match jsStrOpt config.ghl_api_key with
            | some k => some k
            | none => env.ghlApiKey)

/-- The create-native-invoice handler.  The downstream call and the log sink
    are oracles; d and now model the wall clock. -/
def handler (env : Env) (req : Request) (st : RedisState) (rb : RedisBehavior)
    (ghl : GhlPayload → GhlResult) (sink : LogEntry → Bool) (d : JsDate) (now : Nat) :
    Response × RedisState :=
  if req.httpMethod ≠ ("POST") then (⟨405, RespBody.methodNotAllowed⟩, st)
  else if apiKeyRejected env.myInvoiceApiKey req.apiKey then
    (⟨401, RespBody.unauthorized⟩, st)
  else
    match req.body with
    | ParsedBody.invalidJson => (⟨400, RespBody.invalidJson⟩, st)
    | ParsedBody.validationFailed => (⟨400, RespBody.validationFailed⟩, st)
    | ParsedBody.valid p =>
      if rb.hgetallOk = false then
        (⟨500, RespBody.internalError⟩, logEvent sink (unhandledEntry p now) st)
      else
        match st.agencies p.agencyId with
        | none =>
          (⟨403, RespBody.forbidden⟩, logEvent sink (configMissingEntry p now) st)
        | some config =>
          if rb.hincrbyOk = false then
            (⟨500, RespBody.internalError⟩, logEvent sink (unhandledEntry p now) st)
          else
            let res := nextInvoiceNumber p.agencyId config st d
            let counter := res.1.1
            let invoiceNumber := res.1.2
            let st1 := res.2
            let ghlPayload := buildGhlPayload p invoiceNumber
            let agencyGhlKey := jsStrOpt config.ghl_api_key
            match effGhlKey config env with
            | none =>
              (⟨500, RespBody.serverMisconfig⟩,
                logEvent sink (noKeyEntry p now counter invoiceNumber) st1)
            | some _ =>
              match ghl ghlPayload with
              | GhlResult.failure status respData errMsg =>
                if rb.incrOk = false then
                  (⟨500, RespBody.internalError⟩, logEvent sink (unhandledEntry p now) st1)
                else
                  let resInc := incTxnError p.agencyId p.transactionId now st1
                  let count := resInc.1
                  let st2 := resInc.2
                  let poison := decide (count ≥ 5)
                  let st3 := logEvent sink
                    (failEntry p now counter invoiceNumber status respData errMsg poison count)
                    st2
                  if poison then
                    (⟨429, RespBody.poisonPill p.transactionId count⟩, st3)
                  else
                    (⟨jsOrNat status 502, RespBody.createFailed respData⟩, st3)
              | GhlResult.success respData status =>
                let ghlInvoiceId := extractGhlInvoiceId respData
                let keySource := match agencyGhlKey with
                                 | some _ => ("agency")
                                 | none => ("env")
                let st2 := logEvent sink
                  (successEntry p now invoiceNumber ghlInvoiceId status keySource) st1
                (⟨200, RespBody.created ghlInvoiceId invoiceNumber⟩, st2)

/-- Leading digit run parsed as a number (none when there is none). -/
def parseDigitsPrefix (l : List Char) : Option Nat :=
  let ds := l.takeWhile Char.isDigit
  if ds = [] then none else some (parseNat ds)

/-- parseInt(s, 10): skip leading whitespace, optional sign, leading digit
    run; NaN (none) when no digits follow. -/
def jsParseInt (s : String) : Option Int :=
  let l := s.data.dropWhile
    (fun ch => ch == ' ' || ch == '\t' || ch == '\n' || ch == '\r')
  match l with
  | '-' :: rest => (parseDigitsPrefix rest).map (fun n => -(n : Int))
  | '+' :: rest => (parseDigitsPrefix rest).map (fun n => (n : Int))
  | _ => (parseDigitsPrefix l).map (fun n => (n : Int))

/-- Effective log-listing limit:
    Math.max(1, Math.min(parseInt(params.limit || "100", 10) || 100, 500)). -/
def effectiveLimit (limitParam : Option String) : Nat :=
  let s := jsOrStr limitParam ("100")
  let n : Int := match jsParseInt s with
                 | none => 100
                 | some v => if v = 0 then 100 else v
  (max 1 (min n 500)).toNat

/-- Filter predicate of get-logs: a set filter must match the entry field. -/
def logFilterPred (filterAgencyId filterTxnId : Option String) (e : LogEntry) : Bool :=
  (match filterAgencyId with
   | none => true
   | some a => e.agencyId == some a) &&
  (match filterTxnId with
   | none => true
   | some t => e.transactionId == some t)

/-- Core of the get-logs handler: read the newest 500 raw entries, drop the
    unparsable ones, filter, and slice to the effective limit. -/
def getLogs (raw : List (Option LogEntry)) (limitParam agencyParam txnParam : Option String) :
    List LogEntry :=
  let limit := effectiveLimit limitParam
  let entries := (raw.take 500).filterMap id
  let fA := jsStrOpt agencyParam
  let fT := jsStrOpt txnParam
  (entries.filter (logFilterPred fA fT)).take limit

/-- Admin gate of get-logs: only enforced when ADMIN_API_KEY is set. -/
def adminRejected (adminKey headerKey : Option String) : Bool :=
  match jsStrOpt adminKey with
  | none => false
  | some k => if headerKey = some k then false else true

/-- The get-logs handler (response body abstracted to the logs list). -/
def getLogsHandler (adminKey : Option String) (method : String) (headerKey : Option String)
    (raw : List (Option LogEntry)) (limitParam agencyParam txnParam : Option String) :
    Nat × Option (List LogEntry) :=
  if method = ("OPTIONS") then (204, none)
  else if method ≠ ("GET") then (405, none)
  else if adminRejected adminKey headerKey then (401, none)
  else (200, some (getLogs raw limitParam agencyParam txnParam))

/-- Issue n invoice numbers in sequence for one tenant, each issuance reading
    the configuration afresh, as successive requests do. -/
def issueSeq (a : String) (d : JsDate) : Nat → RedisState → List (Nat × String)
  | 0, _ => []
  | n + 1, st =>
    match st.agencies a with
    | none => []
    | some config =>
      let res := nextInvoiceNumber a config st d
      res.1 :: issueSeq a d n res.2

/-- Record n downstream failures in sequence for one (tenant, transaction)
    pair, collecting the returned counts. -/
def incTxnSeq (a t : String) (now : Nat) : Nat → RedisState → List Nat
  | 0, _ => []
  | n + 1, st =>
    let res := incTxnError a t now st
    res.1 :: incTxnSeq a t now n res.2

/-- Fold a list of failure times through incTxnError. -/
def incTxnStates (a t : String) : List Nat → RedisState → RedisState
  | [], st => st
  | now :: rest, st => incTxnStates a t rest (incTxnError a t now st).2

theorem incTxnError_fst (a t : String) (now : Nat) (st : RedisState) :
    (incTxnError a t now st).1 = st.txnErrors a t + 1 := by
  unfold incTxnError
  by_cases h : st.txnErrors a t + 1 = 1 <;> simp [h]

theorem incTxnError_count (a t : String) (now : Nat) (st : RedisState) :
    (incTxnError a t now st).2.txnErrors a t = st.txnErrors a t + 1 := by
  unfold incTxnError
  by_cases h : st.txnErrors a t + 1 = 1 <;> simp [h]

theorem incTxnError_agencies (a t : String) (now : Nat) (st : RedisState) :
    (incTxnError a t now st).2.agencies = st.agencies := by
  unfold incTxnError
  by_cases h : st.txnErrors a t + 1 = 1 <;> simp [h]

theorem handler_unconfigured_eval
    (env : Env) (req : Request) (st : RedisState) (rb : RedisBehavior) (p : Payload)
    (ghl : GhlPayload → GhlResult) (sink : LogEntry → Bool) (d : JsDate) (now : Nat)
    (hm : req.httpMethod = ("POST"))
    (hk : apiKeyRejected env.myInvoiceApiKey req.apiKey = false)
    (hb : req.body = ParsedBody.valid p)
    (hget : rb.hgetallOk = true)
    (hcfg : st.agencies p.agencyId = none) :
    handler env req st rb ghl sink d now
      = (⟨403, RespBody.forbidden⟩, logEvent sink (configMissingEntry p now) st) := by
  unfold handler
  rw [hb]
  simp [hm, hk, hget, hcfg]

theorem handler_infra_hgetall_eval
    (env : Env) (req : Request) (st : RedisState) (rb : RedisBehavior) (p : Payload)
    (ghl : GhlPayload → GhlResult) (sink : LogEntry → Bool) (d : JsDate) (now : Nat)
    (hm : req.httpMethod = ("POST"))
    (hk : apiKeyRejected env.myInvoiceApiKey req.apiKey = false)
    (hb : req.body = ParsedBody.valid p)
    (hget : rb.hgetallOk = false) :
    handler env req st rb ghl sink d now
      = (⟨500, RespBody.internalError⟩, logEvent sink (unhandledEntry p now) st) := by
  unfold handler
  rw [hb]
  simp [hm, hk, hget]

theorem handler_infra_hincrby_eval
    (env : Env) (req : Request) (st : RedisState) (rb : RedisBehavior) (p : Payload)
    (config : AgencyHash)
    (ghl : GhlPayload → GhlResult) (sink : LogEntry → Bool) (d : JsDate) (now : Nat)
    (hm : req.httpMethod = ("POST"))
    (hk : apiKeyRejected env.myInvoiceApiKey req.apiKey = false)
    (hb : req.body = ParsedBody.valid p)
    (hget : rb.hgetallOk = true)
    (hinc : rb.hincrbyOk = false)
    (hcfg : st.agencies p.agencyId = some config) :
    handler env req st rb ghl sink d now
      = (⟨500, RespBody.internalError⟩, logEvent sink (unhandledEntry p now) st) := by
  unfold handler
  rw [hb]
  simp [hm, hk, hget, hinc, hcfg]

theorem handler_downstream_failure_eval
    (env : Env) (req : Request) (st : RedisState) (p : Payload) (config : AgencyHash)
    (kk : String) (status : Option Nat) (respData : Option String) (errMsg : String)
    (sink : LogEntry → Bool) (d : JsDate) (now : Nat)
    (hm : req.httpMethod = ("POST"))
    (hk : apiKeyRejected env.myInvoiceApiKey req.apiKey = false)
    (hb : req.body = ParsedBody.valid p)
    (hcfg : st.agencies p.agencyId = some config)
    (hkey : effGhlKey config env = some kk) :
    handler env req st ⟨true, true, true⟩
        (fun _ => GhlResult.failure status respData errMsg) sink d now
      = (let res := nextInvoiceNumber p.agencyId config st d
         let resInc := incTxnError p.agencyId p.transactionId now res.2
         let st3 := logEvent sink
           (failEntry p now res.1.1 res.1.2 status respData errMsg
             (decide (resInc.1 ≥ 5)) resInc.1) resInc.2
         if decide (resInc.1 ≥ 5) then
           (⟨429, RespBody.poisonPill p.transactionId resInc.1⟩, st3)
         else (⟨jsOrNat status 502, RespBody.createFailed respData⟩, st3)) := by
  unfold handler
  rw [hb]
  simp [hm, hk, hcfg, hkey]

theorem logEvent_agencies (sink : LogEntry → Bool) (e : LogEntry) (st : RedisState) :
    (logEvent sink e st).agencies = st.agencies := by
  unfold logEvent
  split <;> rfl

theorem logEvent_txnErrors (sink : LogEntry → Bool) (e : LogEntry) (st : RedisState) :
    (logEvent sink e st).txnErrors = st.txnErrors := by
  unfold logEvent
  split <;> rfl

theorem logEvent_txnExpiry (sink : LogEntry → Bool) (e : LogEntry) (st : RedisState) :
    (logEvent sink e st).txnExpiry = st.txnExpiry := by
  unfold logEvent
  split <;> rfl

theorem nextInvoiceNumber_snd_txnErrors (a : String) (config : AgencyHash)
    (st : RedisState) (d : JsDate) :
    (nextInvoiceNumber a config st d).2.txnErrors = st.txnErrors := by
  unfold nextInvoiceNumber hincrbyCounter
  cases st.agencies a <;> simp [setAgency]

theorem nextInvoiceNumber_snd_txnExpiry (a : String) (config : AgencyHash)
    (st : RedisState) (d : JsDate) :
    (nextInvoiceNumber a config st d).2.txnExpiry = st.txnExpiry := by
  unfold nextInvoiceNumber hincrbyCounter
  cases st.agencies a <;> simp [setAgency]

theorem nextInvoiceNumber_fst (a : String) (config : AgencyHash)
    (st : RedisState) (d : JsDate) (h : st.agencies a = some config) :
    (nextInvoiceNumber a config st d).1
      = (config.invoice_counter + 1,
         formatInvoiceNumber (some (jsOrStr config.invoice_format ("INV-{YYYY}-{counter:5}")))
           (config.invoice_counter + 1) d) := by
  unfold nextInvoiceNumber hincrbyCounter
  rw [h]

theorem nextInvoiceNumber_agencies_self (a : String) (config : AgencyHash)
    (st : RedisState) (d : JsDate) (h : st.agencies a = some config) :
    (nextInvoiceNumber a config st d).2.agencies a
      = some { config with invoice_counter := config.invoice_counter + 1 } := by
  unfold nextInvoiceNumber hincrbyCounter
  rw [h]
  simp [setAgency]

theorem issueSeq_spec (a : String) (d : JsDate) (fmt key : Option String) :
    ∀ (n k : Nat) (st : RedisState),
      st.agencies a
        = some { invoice_format := fmt, invoice_counter := k, ghl_api_key := key } →
      issueSeq a d n st
        = (List.range' (k + 1) n).map
            (fun c => (c, formatInvoiceNumber
              (some (jsOrStr fmt ("INV-{YYYY}-{counter:5}"))) c d)) := by
  intro n
  induction n with
  | zero => intro k st _; rfl
  | succ n ih =>
    intro k st h
    have e : issueSeq a d (n + 1) st
        = (nextInvoiceNumber a ⟨fmt, k, key⟩ st d).1
          :: issueSeq a d n (nextInvoiceNumber a ⟨fmt, k, key⟩ st d).2 := by
      show (match st.agencies a with
            | none => []
            | some config =>
              (nextInvoiceNumber a config st d).1
                :: issueSeq a d n (nextInvoiceNumber a config st d).2) = _
      rw [h]
    rw [e, nextInvoiceNumber_fst a ⟨fmt, k, key⟩ st d h]
    have h2 : (nextInvoiceNumber a ⟨fmt, k, key⟩ st d).2.agencies a
        = some { invoice_format := fmt, invoice_counter := k + 1, ghl_api_key := key } := by
      have := nextInvoiceNumber_agencies_self a ⟨fmt, k, key⟩ st d h
      simpa using this
    rw [ih (k + 1) _ h2]
    show _ = (List.range' (k + 1) (n + 1)).map _
    rw [List.range'_succ]
    rfl

theorem incTxnSeq_spec (a t : String) (now : Nat) :
    ∀ (n k : Nat) (st : RedisState), st.txnErrors a t = k →
      incTxnSeq a t now n st = List.range' (k + 1) n := by
  intro n
  induction n with
  | zero => intro k st _; rfl
  | succ n ih =>
    intro k st h
    show (incTxnError a t now st).1 :: incTxnSeq a t now n (incTxnError a t now st).2 = _
    rw [incTxnError_fst, h]
    rw [ih (k + 1) _ (by rw [incTxnError_count, h])]
    rw [List.range'_succ]

theorem incTxnError_expiry_first (a t : String) (now : Nat) (st : RedisState)
    (h : st.txnErrors a t = 0) :
    (incTxnError a t now st).2.txnExpiry a t = some (now + 24 * 60 * 60) := by
  unfold incTxnError
  rw [h]
  simp

theorem incTxnError_expiry_stable (a t : String) (now : Nat) (st : RedisState)
    (h : 1 ≤ st.txnErrors a t) :
    (incTxnError a t now st).2.txnExpiry = st.txnExpiry := by
  unfold incTxnError
  have : ¬(st.txnErrors a t + 1 = 1) := by omega
  simp [this]

theorem incTxnStates_expiry_stable (a t : String) :
    ∀ (times : List Nat) (st : RedisState), 1 ≤ st.txnErrors a t →
      (incTxnStates a t times st).txnExpiry a t = st.txnExpiry a t := by
  intro times
  induction times with
  | nil => intro st _; rfl
  | cons now rest ih =>
    intro st h
    show (incTxnStates a t rest (incTxnError a t now st).2).txnExpiry a t = _
    rw [ih _ (by rw [incTxnError_count]; omega)]
    rw [incTxnError_expiry_stable a t now st h]

theorem replaceSub_no_brace {p2 : List Char} (repl : List Char) (a : List Char)
    (h : ∀ x ∈ a, x ≠ '{') : replaceSub ('{' :: p2) repl a = a := by
  have h2 : replaceSub ('{' :: p2) repl (a ++ []) = a ++ replaceSub ('{' :: p2) repl [] :=
    replaceSub_no_brace_append repl a [] h
  rw [List.append_nil] at h2
  rw [h2, replaceSub_nil, List.append_nil]

theorem applyDateTokens_no_brace (d : JsDate) (s : List Char)
    (h : ∀ x ∈ s, x ≠ '{') : applyDateTokens d s = s := by
  unfold applyDateTokens
  rw [replaceSub_no_brace (yyyyStr d) s h]
  rw [replaceSub_no_brace (yyStr d) s h]
  rw [replaceSub_no_brace (mmStr d) s h]
  rw [replaceSub_no_brace (ddStr d) s h]

theorem scanTemplate_no_brace (s : List Char) (h : ∀ x ∈ s, x ≠ '{') :
    scanTemplate s = s.map Sum.inl := by
  induction s with
  | nil => rfl
  | cons ch rest ih =>
    rw [scanTemplate_cons, matchToken_none_head (h ch (List.mem_cons_self ch rest))]
    rw [ih (fun x hx => h x (List.mem_cons_of_mem ch hx))]
    rfl

theorem renderPieces_map_inl (c : Nat) (s : List Char) :
    renderPieces c (s.map Sum.inl) = s := by
  induction s with
  | nil => rfl
  | cons ch rest ih =>
    show ch :: renderPieces c (rest.map Sum.inl) = ch :: rest
    rw [ih]

/-- C1: evaluation of the code at the failing input.  The spec says a null
    template defaults to INV-\x7bYYYY\x7d-\x7bcounter:5\x7d and, since the
    effective template contains a counter token, no defensive suffix is
    appended, giving INV-2024-00007.  The code instead tests the original
    (pre-default) template for the counter token, so it appends the suffix
    and returns INV-2024-00007-7. -/
theorem c1_null_template_appends_suffix :
    formatInvoiceNumber none 7 ⟨2024, 3, 5⟩ = ("INV-2024-00007-7") := by decide

/-- C8: the formatter substitutes the YY and MM date tokens and zero-pads the
    counter to the width given in the counter token; in particular the
    template REF-\x7bYY\x7d\x7bMM\x7d-\x7bcounter:3\x7d with counter 42 on
    2024-03-05 gives exactly REF-2403-042. -/
theorem c8_date_tokens_and_padding :
    formatInvoiceNumber (some ("REF-{YY}{MM}-{counter:3}")) 42 ⟨2024, 3, 5⟩
      = ("REF-2403-042") := by decide

/-- C7: for every template string without a counter token the formatter
    appends a dash and the unpadded decimal counter to the otherwise
    substituted template; in particular STATIC with counter 3 gives STATIC-3
    for every date. -/
theorem c7_defensive_suffix :
    (∀ (t : String) (c : Nat) (d : JsDate), hasCounterToken t.data = false →
       formatInvoiceNumber (some t) c d
         = String.mk (renderPieces c (scanTemplate (applyDateTokens d
             (if t.data = [] then defaultTemplate else t.data))) ++ '-' :: natDigits c)) ∧
    (∀ d : JsDate, formatInvoiceNumber (some ("STATIC")) 3 d = ("STATIC-3")) := by
  constructor
  · intro t c d hf
    show String.mk (formatInvoiceNumberL (some t.data) c d) = _
    rw [formatL_some, hf]
    rw [if_neg Bool.false_ne_true, padc_one]
  · intro d
    have hmem : ∀ x ∈ (("STATIC").data), x ≠ '{' := by decide
    show String.mk (formatInvoiceNumberL (some (("STATIC").data)) 3 d) = _
    rw [formatL_some]
    rw [show hasCounterToken (("STATIC").data) = false from by decide,
      if_neg Bool.false_ne_true]
    rw [if_neg (show ¬(("STATIC").data = []) from by decide)]
    rw [applyDateTokens_no_brace d _ hmem]
    rw [scanTemplate_no_brace _ hmem, renderPieces_map_inl]
    decide

/-- Witness for C7 at the concrete spec example. -/
theorem c7_defensive_suffix_witness :
    hasCounterToken (("STATIC").data) = false ∧
    formatInvoiceNumber (some ("STATIC")) 3 ⟨2024, 3, 5⟩ = ("STATIC-3") :=
  ⟨by decide, c7_defensive_suffix.2 ⟨2024, 3, 5⟩⟩

/-- C2: issuing N invoice numbers sequentially for one tenant whose counter
    starts at 0 returns the counter values 1..N (strictly increasing, no
    gaps), and the formatted numbers produced from them with the tenant's
    template and a fixed date are pairwise distinct. -/
theorem c2_sequential_issuance (N : Nat) (hN : 1 ≤ N) (a : String) (d : JsDate)
    (fmt key : Option String) (st : RedisState)
    (h : st.agencies a
      = some { invoice_format := fmt, invoice_counter := 0, ghl_api_key := key }) :
    (issueSeq a d N st).map Prod.fst = List.range' 1 N ∧
    ((issueSeq a d N st).map Prod.snd).Nodup := by
  have hs := issueSeq_spec a d fmt key N 0 st h
  constructor
  · rw [hs, List.map_map]
    have he : (Prod.fst ∘ fun c =>
        (c, formatInvoiceNumber (some (jsOrStr fmt ("INV-{YYYY}-{counter:5}"))) c d)) = id := rfl
    rw [he, List.map_id]
  · rw [hs, List.map_map]
    have he : (Prod.snd ∘ fun c =>
        (c, formatInvoiceNumber (some (jsOrStr fmt ("INV-{YYYY}-{counter:5}"))) c d))
        = fun c => formatInvoiceNumber (some (jsOrStr fmt ("INV-{YYYY}-{counter:5}"))) c d := rfl
    rw [he]
    exact List.Nodup.map
      (fun c1 c2 hc => formatInvoiceNumber_inj _ d c1 c2 hc)
      (List.nodup_range' _ _)

/-- Concrete single-tenant state for the C2 witness. -/
def c2State : RedisState :=
  { agencies := fun x =>
      if x = ("A") then
        some { invoice_format := none, invoice_counter := 0, ghl_api_key := none }
      else none,
    txnErrors := fun _ _ => 0,
    txnExpiry := fun _ _ => none,
    logs := [] }

/-- Witness for C2 with N = 3. -/
theorem c2_sequential_issuance_witness :
    1 ≤ 3 ∧
    ((issueSeq ("A") ⟨2024, 3, 5⟩ 3 c2State).map Prod.fst = List.range' 1 3 ∧
     ((issueSeq ("A") ⟨2024, 3, 5⟩ 3 c2State).map Prod.snd).Nodup) :=
  ⟨by decide,
   c2_sequential_issuance 3 (by decide) ("A") ⟨2024, 3, 5⟩ none none c2State (by decide)⟩

/-- C3: five sequential downstream failures for one (tenant, transaction)
    pair yield ledger counts 1,2,3,4,5; on a downstream failure the handler
    returns the poison-pill status 429 exactly when the count reaches 5,
    regardless of the downstream status, and surfaces the downstream status
    (or 502) below the threshold. -/
theorem c3_failure_counts_and_poison :
    (∀ (a t : String) (now : Nat) (st : RedisState),
       st.txnErrors a t = 0 → incTxnSeq a t now 5 st = [1, 2, 3, 4, 5]) ∧
    (∀ (env : Env) (req : Request) (st : RedisState) (p : Payload) (config : AgencyHash)
       (kk : String) (status : Option Nat) (respData : Option String) (errMsg : String)
       (sink : LogEntry → Bool) (d : JsDate) (now : Nat),
       req.httpMethod = ("POST") →
       apiKeyRejected env.myInvoiceApiKey req.apiKey = false →
       req.body = ParsedBody.valid p →
       st.agencies p.agencyId = some config →
       effGhlKey config env = some kk →
       5 ≤ st.txnErrors p.agencyId p.transactionId + 1 →
       (handler env req st ⟨true, true, true⟩
           (fun _ => GhlResult.failure status respData errMsg) sink d now).1
         = ⟨429, RespBody.poisonPill p.transactionId
             (st.txnErrors p.agencyId p.transactionId + 1)⟩) ∧
    (∀ (env : Env) (req : Request) (st : RedisState) (p : Payload) (config : AgencyHash)
       (kk : String) (status : Option Nat) (respData : Option String) (errMsg : String)
       (sink : LogEntry → Bool) (d : JsDate) (now : Nat),
       req.httpMethod = ("POST") →
       apiKeyRejected env.myInvoiceApiKey req.apiKey = false →
       req.body = ParsedBody.valid p →
       st.agencies p.agencyId = some config →
       effGhlKey config env = some kk →
       st.txnErrors p.agencyId p.transactionId + 1 < 5 →
       (handler env req st ⟨true, true, true⟩
           (fun _ => GhlResult.failure status respData errMsg) sink d now).1
         = ⟨jsOrNat status 502, RespBody.createFailed respData⟩) := by
  refine ⟨?_, ?_, ?_⟩
  · intro a t now st h
    rw [incTxnSeq_spec a t now 5 0 st h]
    rfl
  · intro env req st p config kk status respData errMsg sink d now hm hk hb hcfg hkey hge
    rw [handler_downstream_failure_eval env req st p config kk status respData errMsg
      sink d now hm hk hb hcfg hkey]
    have hc : (incTxnError p.agencyId p.transactionId now
        (nextInvoiceNumber p.agencyId config st d).2).1
        = st.txnErrors p.agencyId p.transactionId + 1 := by
      rw [incTxnError_fst, nextInvoiceNumber_snd_txnErrors]
    simp only [hc, decide_eq_true hge, if_true]
  · intro env req st p config kk status respData errMsg sink d now hm hk hb hcfg hkey hlt
    rw [handler_downstream_failure_eval env req st p config kk status respData errMsg
      sink d now hm hk hb hcfg hkey]
    have hc : (incTxnError p.agencyId p.transactionId now
        (nextInvoiceNumber p.agencyId config st d).2).1
        = st.txnErrors p.agencyId p.transactionId + 1 := by
      rw [incTxnError_fst, nextInvoiceNumber_snd_txnErrors]
    have hnot : ¬(5 ≤ st.txnErrors p.agencyId p.transactionId + 1) := by omega
    simp only [hc, decide_eq_false hnot, if_false]
    rfl

/-- Environment for the C3 witness. -/
def c3Env : Env := { myInvoiceApiKey := some ("K"), ghlApiKey := none }

/-- Payload for the C3 witness. -/
def c3Payload : Payload :=
  { agencyId := ("A"), locationId := ("L"), contactId := ("C"), transactionId := ("T"),
    isSmallBusiness := false, recipient := none, items := [] }

/-- Request for the C3 witness. -/
def c3Req : Request :=
  { httpMethod := ("POST"), apiKey := some ("K"), body := ParsedBody.valid c3Payload }

/-- Agency configuration for the C3 witness. -/
def c3Config : AgencyHash :=
  { invoice_format := none, invoice_counter := 0, ghl_api_key := some ("GKEY") }

/-- State with no recorded failures for the C3 witness. -/
def c3State : RedisState :=
  { agencies := fun x => if x = ("A") then some c3Config else none,
    txnErrors := fun _ _ => 0,
    txnExpiry := fun _ _ => none,
    logs := [] }

/-- State with four recorded failures for the pair (A, T). -/
def c3StatePoison : RedisState :=
  { agencies := fun x => if x = ("A") then some c3Config else none,
    txnErrors := fun a t => if a = ("A") ∧ t = ("T") then 4 else 0,
    txnExpiry := fun _ _ => none,
    logs := [] }

/-- Witness for C3: counts 1..5 from a fresh pair; the fifth failure returns
    429; an early failure surfaces the downstream status 418. -/
theorem c3_failure_counts_and_poison_witness :
    (incTxnSeq ("A") ("T") 0 5 c3State = [1, 2, 3, 4, 5]) ∧
    ((handler c3Env c3Req c3StatePoison ⟨true, true, true⟩
        (fun _ => GhlResult.failure (some 418) none ("gw")) (fun _ => true)
        ⟨2024, 3, 5⟩ 0).1
      = ⟨429, RespBody.poisonPill ("T") 5⟩) ∧
    ((handler c3Env c3Req c3State ⟨true, true, true⟩
        (fun _ => GhlResult.failure (some 418) none ("gw")) (fun _ => true)
        ⟨2024, 3, 5⟩ 0).1
      = ⟨418, RespBody.createFailed none⟩) :=
  ⟨c3_failure_counts_and_poison.1 ("A") ("T") 0 c3State (by decide),
   c3_failure_counts_and_poison.2.1 c3Env c3Req c3StatePoison c3Payload c3Config ("GKEY")
     (some 418) none ("gw") (fun _ => true) ⟨2024, 3, 5⟩ 0
     (by decide) (by decide) (by decide) (by decide) (by decide) (by decide),
   c3_failure_counts_and_poison.2.2 c3Env c3Req c3State c3Payload c3Config ("GKEY")
     (some 418) none ("gw") (fun _ => true) ⟨2024, 3, 5⟩ 0
     (by decide) (by decide) (by decide) (by decide) (by decide) (by decide)⟩

/-- C4: a well-formed authorized request for an unconfigured tenant gets the
    configuration-error status 403; the per-tenant counters, the failure
    ledger and its expiries are left untouched. -/
theorem c4_unconfigured_tenant (env : Env) (req : Request) (st : RedisState)
    (rb : RedisBehavior) (p : Payload) (ghl : GhlPayload → GhlResult)
    (sink : LogEntry → Bool) (d : JsDate) (now : Nat)
    (hm : req.httpMethod = ("POST"))
    (hk : apiKeyRejected env.myInvoiceApiKey req.apiKey = false)
    (hb : req.body = ParsedBody.valid p)
    (hget : rb.hgetallOk = true)
    (hcfg : st.agencies p.agencyId = none) :
    (handler env req st rb ghl sink d now).1 = ⟨403, RespBody.forbidden⟩ ∧
    (handler env req st rb ghl sink d now).2.agencies = st.agencies ∧
    (handler env req st rb ghl sink d now).2.txnErrors = st.txnErrors ∧
    (handler env req st rb ghl sink d now).2.txnExpiry = st.txnExpiry := by
  rw [handler_unconfigured_eval env req st rb p ghl sink d now hm hk hb hget hcfg]
  exact ⟨rfl, logEvent_agencies _ _ _, logEvent_txnErrors _ _ _, logEvent_txnExpiry _ _ _⟩

/-- State with no configured tenants for the C4 witness. -/
def c4State : RedisState :=
  { agencies := fun _ => none,
    txnErrors := fun _ _ => 0,
    txnExpiry := fun _ _ => none,
    logs := [] }

/-- Witness for C4 at a concrete unconfigured tenant. -/
theorem c4_unconfigured_tenant_witness :
    (handler c3Env c3Req c4State ⟨true, true, true⟩
        (fun _ => GhlResult.success {} 200) (fun _ => true) ⟨2024, 3, 5⟩ 0).1
      = ⟨403, RespBody.forbidden⟩ ∧
    (handler c3Env c3Req c4State ⟨true, true, true⟩
        (fun _ => GhlResult.success {} 200) (fun _ => true) ⟨2024, 3, 5⟩ 0).2.agencies
      = c4State.agencies ∧
    (handler c3Env c3Req c4State ⟨true, true, true⟩
        (fun _ => GhlResult.success {} 200) (fun _ => true) ⟨2024, 3, 5⟩ 0).2.txnErrors
      = c4State.txnErrors ∧
    (handler c3Env c3Req c4State ⟨true, true, true⟩
        (fun _ => GhlResult.success {} 200) (fun _ => true) ⟨2024, 3, 5⟩ 0).2.txnExpiry
      = c4State.txnExpiry :=
  c4_unconfigured_tenant c3Env c3Req c4State ⟨true, true, true⟩ c3Payload
    (fun _ => GhlResult.success {} 200) (fun _ => true) ⟨2024, 3, 5⟩ 0
    (by decide) (by decide) (by decide) (by decide) (by decide)

/-- C6: the 24-hour (86400 second) ledger expiry is set exactly by the
    increment that returns count 1, and no later increment for the same pair
    changes it. -/
theorem c6_expiry_set_once :
    (∀ (a t : String) (now : Nat) (st : RedisState), st.txnErrors a t = 0 →
       (incTxnError a t now st).1 = 1 ∧
       (incTxnError a t now st).2.txnExpiry a t = some (now + 86400)) ∧
    (∀ (a t : String) (now : Nat) (st : RedisState), 1 ≤ st.txnErrors a t →
       (incTxnError a t now st).2.txnExpiry = st.txnExpiry) ∧
    (∀ (a t : String) (now0 : Nat) (times : List Nat) (st : RedisState),
       st.txnErrors a t = 0 →
       (incTxnStates a t times (incTxnError a t now0 st).2).txnExpiry a t
         = some (now0 + 86400)) := by
  refine ⟨?_, ?_, ?_⟩
  · intro a t now st h
    refine ⟨by rw [incTxnError_fst, h], ?_⟩
    rw [incTxnError_expiry_first a t now st h]
  · intro a t now st h
    exact incTxnError_expiry_stable a t now st h
  · intro a t now0 times st h
    rw [incTxnStates_expiry_stable a t times _ (by rw [incTxnError_count, h])]
    rw [incTxnError_expiry_first a t now0 st h]

/-- Fresh ledger state for the C6 witness. -/
def c6State : RedisState :=
  { agencies := fun _ => none,
    txnErrors := fun _ _ => 0,
    txnExpiry := fun _ _ => none,
    logs := [] }

/-- State with one recorded failure for the C6 witness. -/
def c6StateOne : RedisState :=
  { agencies := fun _ => none,
    txnErrors := fun a t => if a = ("A") ∧ t = ("T") then 1 else 0,
    txnExpiry := fun a t => if a = ("A") ∧ t = ("T") then some 86410 else none,
    logs := [] }

/-- Witness for C6 at concrete times. -/
theorem c6_expiry_set_once_witness :
    ((incTxnError ("A") ("T") 10 c6State).1 = 1 ∧
     (incTxnError ("A") ("T") 10 c6State).2.txnExpiry ("A") ("T") = some (10 + 86400)) ∧
    ((incTxnError ("A") ("T") 50 c6StateOne).2.txnExpiry = c6StateOne.txnExpiry) ∧
    ((incTxnStates ("A") ("T") [20, 30] (incTxnError ("A") ("T") 10 c6State).2).txnExpiry
        ("A") ("T") = some (10 + 86400)) :=
  ⟨c6_expiry_set_once.1 ("A") ("T") 10 c6State (by decide),
   c6_expiry_set_once.2.1 ("A") ("T") 50 c6StateOne (by decide),
   c6_expiry_set_once.2.2 ("A") ("T") 10 [20, 30] c6State (by decide)⟩

/-- Environment for the C5 runs. -/
def c5Env : Env := { myInvoiceApiKey := some ("K"), ghlApiKey := none }

/-- Payload for the C5 runs. -/
def c5Payload : Payload :=
  { agencyId := ("A"), locationId := ("L"), contactId := ("C"), transactionId := ("T"),
    isSmallBusiness := false, recipient := none, items := [] }

/-- Request for the C5 runs. -/
def c5Req : Request :=
  { httpMethod := ("POST"), apiKey := some ("K"), body := ParsedBody.valid c5Payload }

/-- Configured tenant for the C5 runs. -/
def c5State : RedisState :=
  { agencies := fun x =>
      if x = ("A") then
        some { invoice_format := none, invoice_counter := 0, ghl_api_key := some ("GKEY") }
      else none,
    txnErrors := fun _ _ => 0,
    txnExpiry := fun _ _ => none,
    logs := [] }

/-- Counterexample to C5: a downstream transient failure (ledger count 1,
    below the poison threshold) whose downstream status is 429 is surfaced as
    HTTP 429, the same status as the poison-pill category, so the status
    codes of distinct failure categories are not distinct for every
    downstream status. -/
theorem c5_counterexample_transient_collides_with_poison :
    ((handler c5Env c5Req c5State ⟨true, true, true⟩
        (fun _ => GhlResult.failure (some 429) none ("gw")) (fun _ => true)
        ⟨2024, 3, 5⟩ 0).1.statusCode = 429) ∧
    ((handler c5Env c5Req c5State ⟨true, true, true⟩
        (fun _ => GhlResult.failure (some 429) none ("gw")) (fun _ => true)
        ⟨2024, 3, 5⟩ 0).2.txnErrors ("A") ("T") = 1) := by decide

/-- C5 (amended): the configuration-error, infrastructure-error and
    poison-pill categories have fixed, pairwise distinct statuses 403, 500
    and 429; the transient category surfaces the downstream status itself
    (502 when absent or zero), which coincides with the other categories'
    statuses exactly when the downstream status is one of them. -/
theorem c5_amended_statuses :
    (∀ (env : Env) (req : Request) (st : RedisState) (rb : RedisBehavior) (p : Payload)
       (ghl : GhlPayload → GhlResult) (sink : LogEntry → Bool) (d : JsDate) (now : Nat),
       req.httpMethod = ("POST") →
       apiKeyRejected env.myInvoiceApiKey req.apiKey = false →
       req.body = ParsedBody.valid p →
       rb.hgetallOk = true →
       st.agencies p.agencyId = none →
       (handler env req st rb ghl sink d now).1.statusCode = 403) ∧
    (∀ (env : Env) (req : Request) (st : RedisState) (rb : RedisBehavior) (p : Payload)
       (ghl : GhlPayload → GhlResult) (sink : LogEntry → Bool) (d : JsDate) (now : Nat),
       req.httpMethod = ("POST") →
       apiKeyRejected env.myInvoiceApiKey req.apiKey = false →
       req.body = ParsedBody.valid p →
       rb.hgetallOk = false →
       (handler env req st rb ghl sink d now).1.statusCode = 500) ∧
    (∀ (env : Env) (req : Request) (st : RedisState) (rb : RedisBehavior) (p : Payload)
       (config : AgencyHash)
       (ghl : GhlPayload → GhlResult) (sink : LogEntry → Bool) (d : JsDate) (now : Nat),
       req.httpMethod = ("POST") →
       apiKeyRejected env.myInvoiceApiKey req.apiKey = false →
       req.body = ParsedBody.valid p →
       rb.hgetallOk = true →
       rb.hincrbyOk = false →
       st.agencies p.agencyId = some config →
       (handler env req st rb ghl sink d now).1.statusCode = 500) ∧
    (∀ (env : Env) (req : Request) (st : RedisState) (p : Payload) (config : AgencyHash)
       (kk : String) (status : Option Nat) (respData : Option String) (errMsg : String)
       (sink : LogEntry → Bool) (d : JsDate) (now : Nat),
       req.httpMethod = ("POST") →
       apiKeyRejected env.myInvoiceApiKey req.apiKey = false →
       req.body = ParsedBody.valid p →
       st.agencies p.agencyId = some config →
       effGhlKey config env = some kk →
       5 ≤ st.txnErrors p.agencyId p.transactionId + 1 →
       (handler env req st ⟨true, true, true⟩
           (fun _ => GhlResult.failure status respData errMsg) sink d now).1.statusCode = 429) ∧
    (∀ (env : Env) (req : Request) (st : RedisState) (p : Payload) (config : AgencyHash)
       (kk : String) (status : Option Nat) (respData : Option String) (errMsg : String)
       (sink : LogEntry → Bool) (d : JsDate) (now : Nat),
       req.httpMethod = ("POST") →
       apiKeyRejected env.myInvoiceApiKey req.apiKey = false →
       req.body = ParsedBody.valid p →
       st.agencies p.agencyId = some config →
       effGhlKey config env = some kk →
       st.txnErrors p.agencyId p.transactionId + 1 < 5 →
       (handler env req st ⟨true, true, true⟩
           (fun _ => GhlResult.failure status respData errMsg) sink d now).1.statusCode
         = jsOrNat status 502) ∧
    ((403 : Nat) ≠ 500 ∧ (403 : Nat) ≠ 429 ∧ (500 : Nat) ≠ 429) ∧
    (jsOrNat none 502 = 502 ∧ ∀ s : Nat, s ≠ 0 → jsOrNat (some s) 502 = s) := by
  refine ⟨?_, ?_, ?_, ?_, ?_, by decide, by decide, ?_⟩
  · intro env req st rb p ghl sink d now hm hk hb hget hcfg
    rw [handler_unconfigured_eval env req st rb p ghl sink d now hm hk hb hget hcfg]
  · intro env req st rb p ghl sink d now hm hk hb hget
    rw [handler_infra_hgetall_eval env req st rb p ghl sink d now hm hk hb hget]
  · intro env req st rb p config ghl sink d now hm hk hb hget hinc hcfg
    rw [handler_infra_hincrby_eval env req st rb p config ghl sink d now hm hk hb hget hinc hcfg]
  · intro env req st p config kk status respData errMsg sink d now hm hk hb hcfg hkey hge
    rw [handler_downstream_failure_eval env req st p config kk status respData errMsg
      sink d now hm hk hb hcfg hkey]
    have hc : (incTxnError p.agencyId p.transactionId now
        (nextInvoiceNumber p.agencyId config st d).2).1
        = st.txnErrors p.agencyId p.transactionId + 1 := by
      rw [incTxnError_fst, nextInvoiceNumber_snd_txnErrors]
    simp only [hc, decide_eq_true hge, if_true]
  · intro env req st p config kk status respData errMsg sink d now hm hk hb hcfg hkey hlt
    rw [handler_downstream_failure_eval env req st p config kk status respData errMsg
      sink d now hm hk hb hcfg hkey]
    have hc : (incTxnError p.agencyId p.transactionId now
        (nextInvoiceNumber p.agencyId config st d).2).1
        = st.txnErrors p.agencyId p.transactionId + 1 := by
      rw [incTxnError_fst, nextInvoiceNumber_snd_txnErrors]
    have hnot : ¬(5 ≤ st.txnErrors p.agencyId p.transactionId + 1) := by omega
    simp only [hc, decide_eq_false hnot, if_false]
    rfl
  · intro s hs
    unfold jsOrNat
    simp [hs]

/-- State with no configured tenants for the C5 witness. -/
def c5StateNoCfg : RedisState :=
  { agencies := fun _ => none,
    txnErrors := fun _ _ => 0,
    txnExpiry := fun _ _ => none,
    logs := [] }

/-- State with four recorded failures for the C5 witness. -/
def c5StatePoison : RedisState :=
  { agencies := fun x =>
      if x = ("A") then
        some { invoice_format := none, invoice_counter := 0, ghl_api_key := some ("GKEY") }
      else none,
    txnErrors := fun a t => if a = ("A") ∧ t = ("T") then 4 else 0,
    txnExpiry := fun _ _ => none,
    logs := [] }

/-- Witness for the amended C5 at one concrete run per category. -/
theorem c5_amended_statuses_witness :
    ((handler c5Env c5Req c5StateNoCfg ⟨true, true, true⟩
        (fun _ => GhlResult.success {} 200) (fun _ => true) ⟨2024, 3, 5⟩ 0).1.statusCode
      = 403) ∧
    ((handler c5Env c5Req c5State ⟨false, true, true⟩
        (fun _ => GhlResult.success {} 200) (fun _ => true) ⟨2024, 3, 5⟩ 0).1.statusCode
      = 500) ∧
    ((handler c5Env c5Req c5State ⟨true, false, true⟩
        (fun _ => GhlResult.success {} 200) (fun _ => true) ⟨2024, 3, 5⟩ 0).1.statusCode
      = 500) ∧
    ((handler c5Env c5Req c5StatePoison ⟨true, true, true⟩
        (fun _ => GhlResult.failure (some 418) none ("gw")) (fun _ => true)
        ⟨2024, 3, 5⟩ 0).1.statusCode = 429) ∧
    ((handler c5Env c5Req c5State ⟨true, true, true⟩
        (fun _ => GhlResult.failure (some 418) none ("gw")) (fun _ => true)
        ⟨2024, 3, 5⟩ 0).1.statusCode = jsOrNat (some 418) 502) ∧
    jsOrNat (some 418) 502 = 418 :=
  ⟨c5_amended_statuses.1 c5Env c5Req c5StateNoCfg ⟨true, true, true⟩ c5Payload
     (fun _ => GhlResult.success {} 200) (fun _ => true) ⟨2024, 3, 5⟩ 0
     (by decide) (by decide) (by decide) (by decide) (by decide),
   c5_amended_statuses.2.1 c5Env c5Req c5State ⟨false, true, true⟩ c5Payload
     (fun _ => GhlResult.success {} 200) (fun _ => true) ⟨2024, 3, 5⟩ 0
     (by decide) (by decide) (by decide) (by decide),
   c5_amended_statuses.2.2.1 c5Env c5Req c5State ⟨true, false, true⟩ c5Payload
     { invoice_format := none, invoice_counter := 0, ghl_api_key := some ("GKEY") }
     (fun _ => GhlResult.success {} 200) (fun _ => true) ⟨2024, 3, 5⟩ 0
     (by decide) (by decide) (by decide) (by decide) (by decide) (by decide),
   c5_amended_statuses.2.2.2.1 c5Env c5Req c5StatePoison c5Payload
     { invoice_format := none, invoice_counter := 0, ghl_api_key := some ("GKEY") }
     ("GKEY") (some 418) none ("gw") (fun _ => true) ⟨2024, 3, 5⟩ 0
     (by decide) (by decide) (by decide) (by decide) (by decide) (by decide),
   c5_amended_statuses.2.2.2.2.1 c5Env c5Req c5State c5Payload
     { invoice_format := none, invoice_counter := 0, ghl_api_key := some ("GKEY") }
     ("GKEY") (some 418) none ("gw") (fun _ => true) ⟨2024, 3, 5⟩ 0
     (by decide) (by decide) (by decide) (by decide) (by decide) (by decide),
   c5_amended_statuses.2.2.2.2.2.2.2 418 (by decide)⟩

/-- C9: the HTTP response of the handler is the same under every behaviour of
    the log sink as when every append succeeds: a sink failure never aborts
    the request or alters its outcome. -/
theorem c9_log_sink_no_effect (env : Env) (req : Request) (st : RedisState)
    (rb : RedisBehavior) (ghl : GhlPayload → GhlResult) (d : JsDate) (now : Nat)
    (sink : LogEntry → Bool) :
    (handler env req st rb ghl sink d now).1
      = (handler env req st rb ghl (fun _ => true) d now).1 := by
  unfold handler
  repeat' split
  all_goals dsimp only
  all_goals repeat' split
  all_goals rfl

/-- Limit as the claim words it: the integer value of the limit parameter
    clamped to 1..500, defaulting to 100 exactly when the parameter is absent
    or not a parsable integer. -/
def claimedLimitC10 (limitParam : Option String) : Nat :=
  match limitParam with
  | none => 100
  | some s =>
    match jsParseInt s with
    | none => 100
    | some v => (max 1 (min v 500)).toNat

/-- A parsable log entry used to populate the list in the C10 counterexample. -/
def c10Entry : LogEntry := { ts := 0, level := ("info"), message := ("m") }

/-- Counterexample to C10: for limit parameter "0" the claim's clamped limit
    is 1, but the code falls back to 100 because parseInt returns the falsy
    0, and the response then carries 100 entries instead of at most 1. -/
theorem c10_counterexample_zero_limit :
    effectiveLimit (some ("0")) = 100 ∧
    claimedLimitC10 (some ("0")) = 1 ∧
    (getLogs (List.replicate 200 (some c10Entry)) (some ("0")) none none).length = 100 := by
  exact ⟨by decide, by decide, by decide⟩

/-- Limit as amended: additionally defaults to 100 when the parameter is
    empty or parses to the (falsy) integer 0. -/
def amendedLimitC10 (limitParam : Option String) : Nat :=
  match limitParam with
  | none => 100
  | some s =>
    if s = ("") then 100
    else
      match jsParseInt s with
      | none => 100
      | some v => if v = 0 then 100 else (max 1 (min v 500)).toNat

theorem clampBounds (n : Int) :
    1 ≤ (max 1 (min n 500)).toNat ∧ (max 1 (min n 500)).toNat ≤ 500 := by
  have h1 : (1 : Int) ≤ max 1 (min n 500) := le_max_left _ _
  have h2 : max 1 (min n 500) ≤ 500 := by
    apply max_le
    · norm_num
    · exact le_trans (min_le_right _ _) (by norm_num)
  omega

theorem effectiveLimit_eq_amended (lp : Option String) :
    effectiveLimit lp = amendedLimitC10 lp := by
  cases lp with
  | none => decide
  | some s =>
    by_cases hs : s = ("")
    · rw [hs]; decide
    · unfold effectiveLimit amendedLimitC10 jsOrStr
      dsimp only
      rw [if_neg hs, if_neg hs]
      cases hp : jsParseInt s with
      | none => decide
      | some v =>
        dsimp only
        by_cases hv : v = 0
        · rw [hv]; decide
        · rw [if_neg hv, if_neg hv]

/-- C10 (amended): the effective limit is the parsed limit clamped to
    1..500, with the default 100 taken when the parameter is absent, empty,
    unparsable, or parses to 0; the 200 response holds at most that many
    entries, drawn as a sublist of the filtered parsable entries of the
    newest 500 raw entries. -/
theorem c10_amended_limit_and_listing (raw : List (Option LogEntry))
    (limitParam agencyParam txnParam : Option String) :
    1 ≤ effectiveLimit limitParam ∧
    effectiveLimit limitParam ≤ 500 ∧
    effectiveLimit limitParam = amendedLimitC10 limitParam ∧
    (getLogs raw limitParam agencyParam txnParam).length ≤ effectiveLimit limitParam ∧
    List.Sublist (getLogs raw limitParam agencyParam txnParam)
      (((raw.take 500).filterMap id).filter
        (logFilterPred (jsStrOpt agencyParam) (jsStrOpt txnParam))) := by
  refine ⟨?_, ?_, effectiveLimit_eq_amended limitParam, ?_, ?_⟩
  · exact (clampBounds _).1
  · exact (clampBounds _).2
  · show ((((raw.take 500).filterMap id).filter
      (logFilterPred (jsStrOpt agencyParam) (jsStrOpt txnParam))).take
        (effectiveLimit limitParam)).length ≤ effectiveLimit limitParam
    rw [List.length_take]
    exact Nat.min_le_left _ _
  · exact List.take_sublist _ _
